import Mathlib

/-!
Verification development for the Ethora SDK backend-integration repository.

The definitions below are a shallow embedding of the TypeScript sources:
- examples/healthcare-insurance/demo-backend.ts (case orchestration, ensureUser,
  grant access, bulk user deletion endpoint),
- src/repositories/ChatRepositoryImpl.ts (createChatName, deleteChatRoom, deleteUsers),
- src/config/secrets.ts (the fixed JID domain).

JavaScript truthiness on optional strings is modeled by `truthy`; the in-memory
Map objects are modeled by association lists; every external HTTP call is
modeled through an oracle (`Gateway`) giving the outcome of the n-th call of
each kind, and call counters record how many external calls were issued.
-/

/-- Truthiness of an optional string, as JavaScript evaluates it: `undefined`
and the empty string are falsy, every other string is truthy. -/
def truthy : Option String → Bool
  | some s => s != ""
  | none => false

/-- Checks that the first character list is a prefix of the second. -/
def begWith : List Char → List Char → Bool
  | [], _ => true
  | _ :: _, [] => false
  | a :: as, b :: bs => a == b && begWith as bs

/-- Checks that the needle occurs as a contiguous run inside the hay,
modeling JavaScript String.prototype.includes. -/
def containsL (needle : List Char) : List Char → Bool
  | [] => begWith needle []
  | hd :: rest => begWith needle (hd :: rest) || containsL needle rest

/-- String-level substring test: `containsSub hay needle` models
`hay.includes(needle)` in JavaScript. -/
def containsSub (hay needle : String) : Bool :=
  containsL needle.data hay.data

/-- Model of JavaScript String.prototype.toLowerCase, character by character. -/
def toLowerStr (s : String) : String :=
  ⟨s.data.map Char.toLower⟩

/-- Participant roles accepted by the demo backend. -/
inductive Role where
  | admin
  | practitioner
  | patient
deriving DecidableEq, Repr

/-- Participant record of demo-backend.ts; optional fields model JSON fields
that may be absent. -/
structure Participant where
  userId : String
  role : Role
  displayName : Option String := none
  email : Option String := none
  firstName : Option String := none
  lastName : Option String := none
  password : Option String := none
  xmppUsername : Option String := none
deriving DecidableEq, Repr

/-- Case record stored in the demo backend local case map. -/
structure CaseRecord where
  caseId : String
  participants : List String
  metadata : Option String := none
deriving DecidableEq, Repr

/-- The profile which createUserDirect actually sends to the external
user-creation endpoint (the usersList[0] object). -/
structure SentProfile where
  uuid : String
  email : String
  firstName : String
  lastName : String
  password : String
deriving DecidableEq, Repr

/-- The userData object assembled by ensureUser (and by the retry path)
before it is handed to createUserDirect. -/
structure UserData where
  role : Option Role := none
  displayName : Option String := none
  email : Option String := none
  firstName : Option String := none
  lastName : Option String := none
  password : Option String := none
deriving DecidableEq, Repr

/-- Relevant shape of a successful user-creation response body:
results[0].xmppUsername, a top level xmppUsername, and a top level userId. -/
structure CreateUserResp where
  resultsXmpp : Option String := none
  topXmpp : Option String := none
  respUserId : Option String := none
deriving DecidableEq, Repr

/-- Body attached to an axios error response: a JSON object with an optional
error field, a plain string, or no body at all. -/
inductive ErrData where
  | obj (error : Option String)
  | str (s : String)
  | nodata
deriving DecidableEq, Repr

/-- Axios error as the handlers inspect it: optional HTTP status, response
body, and the error message. -/
structure AxiosErr where
  status : Option Nat
  data : ErrData
  message : String
deriving DecidableEq, Repr

/-- Error value thrown out of a handler: an axios error or any other thrown
value, which the code only passes along. -/
inductive ThrownError where
  | axios (e : AxiosErr)
  | other (msg : String)
deriving DecidableEq, Repr

/-- Outcome of one external user-creation call. -/
inductive CreateUserOutcome where
  | ok (resp : CreateUserResp)
  | err (e : AxiosErr)
  | exn (msg : String)
deriving DecidableEq, Repr

/-- Outcome of an external call whose successful body is not inspected
(room creation, access grant). -/
inductive CallOutcome where
  | ok
  | err (e : AxiosErr)
  | exn (msg : String)
deriving DecidableEq, Repr

/-- Result of ensureUser: either the resolved identifiers or a thrown error. -/
inductive EnsureRes where
  | ok (userId xmpp : String)
  | fail (e : ThrownError)
deriving DecidableEq, Repr

/-- Lookup in an association-list model of a JavaScript Map. -/
def mget {α : Type} (m : List (String × α)) (k : String) : Option α :=
  match m with
  | [] => none
  | (k', v) :: rest => if k' == k then some v else mget rest k

/-- Insertion (Map.set) in the association-list model. -/
def mset {α : Type} (m : List (String × α)) (k : String) (v : α) : List (String × α) :=
  (k, v) :: m.filter (fun kv => kv.1 != k)

/-- Deletion (Map.delete) in the association-list model. -/
def mdel {α : Type} (m : List (String × α)) (k : String) : List (String × α) :=
  m.filter (fun kv => kv.1 != k)

/-- Membership (Map.has) in the association-list model. -/
def mhas {α : Type} (m : List (String × α)) (k : String) : Bool :=
  (mget m k).isSome

/-- Process-local mutable state of the demo backend: the users cache, the case
map, the pending case-creation lock set, call counters for each kind of
external call, and the list of profiles sent to the user-creation endpoint. -/
structure SysState where
  users : List (String × Participant)
  cases : List (String × CaseRecord)
  locks : List String
  userCalls : Nat
  roomCalls : Nat
  grantCalls : Nat
  sent : List SentProfile
deriving DecidableEq, Repr

/-- Fixed JID domain from src/config/secrets.ts. -/
def ETHORA_JID_DOMAIN : String := "@conference.xmpp.ethoradev.com"

/-- EthoraSDKService.createChatName: appId underscore workspaceId, with the
JID domain appended when full is true. -/
def createChatName (appId workspaceId : String) (full : Bool) : String :=
  if full then appId ++ "_" ++ workspaceId ++ ETHORA_JID_DOMAIN
  else appId ++ "_" ++ workspaceId

/-- Removes a suffix of the given length from the end of a string; used to
state the round-trip property about createChatName. -/
def stripSuffix (s suffix : String) : String :=
  ⟨s.data.take (s.data.length - suffix.data.length)⟩

/-- Error message extraction used by ensureUser on a failed user-creation
call: the error field of an object body (or empty), else
String(errorData or error.message). -/
def errMessageOf (e : AxiosErr) : String :=
  match e.data with
  | .obj err => err.getD ""
  | .str s => if s == "" then e.message else s
  | .nodata => e.message

/-- Conflict detection for user creation: status 422 and the extracted message
includes "already exist" or "already exists". -/
def isUserConflict (e : AxiosErr) : Bool :=
  e.status == some 422 &&
    (containsSub (errMessageOf e) "already exist" ||
      containsSub (errMessageOf e) "already exists")

/-- Error message extraction used by the room-creation catch block:
the error field of an object body (or empty), else String(errorData or ""). -/
def roomErrMsg (e : AxiosErr) : String :=
  match e.data with
  | .obj err => err.getD ""
  | .str s => s
  | .nodata => ""

/-- Conflict detection for room creation: status 422 and the extracted message
includes "already exist" or "already exists". -/
def isRoomConflict (e : AxiosErr) : Bool :=
  e.status == some 422 &&
    (containsSub (roomErrMsg e) "already exist" ||
      containsSub (roomErrMsg e) "already exists")

/-- First-name pools of generateRandomUserData, per role. -/
def poolFirst : Role → List String
  | .admin => ["Sarah", "Michael", "Jennifer", "David", "Emily"]
  | .practitioner => ["Dr. James", "Dr. Maria", "Dr. Robert", "Dr. Lisa", "Dr. John"]
  | .patient => ["John", "Mary", "Robert", "Patricia", "William"]

/-- Last-name pools of generateRandomUserData, per role. -/
def poolLast : Role → List String
  | .admin => ["Johnson", "Williams", "Brown", "Jones", "Garcia"]
  | .practitioner => ["Smith", "Martinez", "Anderson", "Taylor", "Thomas"]
  | .patient => ["Miller", "Davis", "Wilson", "Moore", "Jackson"]

/-- The userData object which ensureUser assembles from a participant before
its first user-creation attempt; a lastName that is present but shorter than
2 characters is replaced with "User", a missing or empty one is left out. -/
def buildUserData (u : Participant) : UserData :=
  { role := some u.role
    displayName := if truthy u.displayName then u.displayName else none
    firstName := if truthy u.firstName then u.firstName else none
    lastName :=
      match u.lastName with
      | some l => if l == "" then none else if 2 ≤ l.length then some l else some "User"
      | none => none
    password := if truthy u.password then u.password else none }

/-- Whitespace trim at both ends of a character list, modeling
String.prototype.trim. -/
def wsTrim (s : List Char) : List Char :=
  (((s.dropWhile Char.isWhitespace).reverse).dropWhile Char.isWhitespace).reverse

/-- Maximal non-whitespace runs of a character list, accumulating the current
word in reverse. -/
def collectWords : List Char → List Char → List String
  | cur, [] => if cur.isEmpty then [] else [String.mk cur.reverse]
  | cur, c :: rest =>
    if c.isWhitespace then
      if cur.isEmpty then collectWords [] rest
      else String.mk cur.reverse :: collectWords [] rest
    else collectWords (c :: cur) rest

/-- Model of displayName.trim().split(whitespace regex) in JavaScript: the
whitespace-separated words of the trimmed string, or a single empty string
when the trimmed string is empty. -/
def splitWS (s : String) : List String :=
  let t := wsTrim s.data
  if t.isEmpty then [""] else collectWords [] t

/-- Join with single spaces, modeling Array.prototype.join(" "). -/
def joinSpace : List String → String
  | [] => ""
  | [x] => x
  | x :: xs => x ++ " " ++ joinSpace xs

/-- Name resolution of createUserDirect: prefer a truthy firstName (with the
given lastName or empty), else split the displayName, else defaults; a final
check replaces an empty or too-short lastName with "User". -/
def sentNames (d : UserData) : String × String :=
  let fnln :=
    if truthy d.firstName then
      (d.firstName.getD "", if truthy d.lastName then d.lastName.getD "" else "")
    else if truthy d.displayName then
      let parts := splitWS (d.displayName.getD "")
      let fn :=
        match parts with
        | [] => "User"
        | p :: _ => if p == "" then "User" else p
      (fn, joinSpace (parts.drop 1))
    else ("User", "")
  let ln := if fnln.2 == "" || fnln.2.length < 2 then "User" else fnln.2
  (fnln.1, ln)

/-- The profile createUserDirect sends to the batch user-creation endpoint:
plain userId as uuid, given or generated email and password, and the resolved
names. -/
def payloadFor (userId : String) (d : UserData) (freshEmail : String) : SentProfile :=
  let email := if truthy d.email then d.email.getD "" else freshEmail
  let password := if truthy d.password then d.password.getD "" else "password_" ++ userId
  let nm := sentNames d
  { uuid := userId, email := email, firstName := nm.1, lastName := nm.2, password := password }

/-- Extraction of the xmppUsername from a user-creation response:
results[0].xmppUsername first, then the top-level field, defaulting to the
plain userId. -/
def extractXmpp (userId : String) (r : CreateUserResp) : String :=
  let rx := if truthy r.resultsXmpp then r.resultsXmpp else r.topXmpp
  if truthy rx then rx.getD userId else userId

/-- Cached xmppUsername of a user id in the local users map. -/
def cachedXmpp (users : List (String × Participant)) (uid : String) : Option String :=
  (mget users uid).bind Participant.xmppUsername

/-- Oracle for external calls: the outcome of the n-th call of each kind, the
generated email for the n-th user-creation call, and the random choices
(two pool indices and an email) used by a retry started after n calls. -/
structure Gateway where
  userResp : Nat → CreateUserOutcome
  roomResp : Nat → CallOutcome
  grantResp : Nat → CallOutcome
  freshEmail : Nat → String
  randPick : Nat → Nat × Nat × String

/-- Conflict branch of ensureUser: reuse a truthy cached xmppUsername, else
store the participant as given and fall back to the plain userId. -/
def conflictReturn (st : SysState) (u : Participant) : EnsureRes × SysState :=
  if truthy (cachedXmpp st.users u.userId) then
    (.ok u.userId ((cachedXmpp st.users u.userId).getD ""), st)
  else (.ok u.userId u.userId, { st with users := mset st.users u.userId u })

/-- The fallback userData the retry path assembles from generateRandomUserData
after n user-creation calls: first and last name picked from the per-role
pools by the random indices, a random email, and the derived displayName. -/
def retryUD (g : Gateway) (n : Nat) (r : Role) : UserData :=
  { firstName := some ((poolFirst r).getD ((g.randPick n).1 % 5) "User")
    lastName := some ((poolLast r).getD ((g.randPick n).2.1 % 5) "User")
    email := some (g.randPick n).2.2
    displayName := some (((poolFirst r).getD ((g.randPick n).1 % 5) "User") ++ " " ++
      ((poolLast r).getD ((g.randPick n).2.1 % 5) "User")) }

/-- ensureUser of demo-backend.ts: short-circuit on a truthy cached
xmppUsername; otherwise call the user-creation endpoint with data built from
the participant; on a conflict reuse or fall back; on any other axios error
retry exactly once with pool-generated random data; propagate remaining
errors. -/
def ensureUser (g : Gateway) (st : SysState) (u : Participant) : EnsureRes × SysState :=
  if truthy (cachedXmpp st.users u.userId) then
    (.ok u.userId ((cachedXmpp st.users u.userId).getD u.userId), st)
  else
    let sent1 := payloadFor u.userId (buildUserData u) (g.freshEmail st.userCalls)
    let st1 := { st with userCalls := st.userCalls + 1, sent := st.sent ++ [sent1] }
    match g.userResp st.userCalls with
    | .ok resp =>
      let x := extractXmpp u.userId resp
      (.ok u.userId x,
        { st1 with users := mset st1.users u.userId { u with xmppUsername := some x } })
    | .exn m => (.fail (.other m), st1)
    | .err e =>
      if isUserConflict e then conflictReturn st1 u
      else
        let rd := retryUD g st1.userCalls u.role
        let sent2 := payloadFor u.userId rd (g.freshEmail st1.userCalls)
        let st2 := { st1 with userCalls := st1.userCalls + 1, sent := st1.sent ++ [sent2] }
        match g.userResp st1.userCalls with
        | .ok resp =>
          let x := extractXmpp u.userId resp
          let u2 := { u with
            firstName := rd.firstName
            lastName := rd.lastName
            email := rd.email
            displayName := rd.displayName
            xmppUsername := some x }
          (.ok u.userId x, { st2 with users := mset st2.users u.userId u2 })
        | .exn m => (.fail (.other m), st2)
        | .err e2 =>
          if isUserConflict e2 then conflictReturn st2 u
          else (.fail (.axios e2), st2)

/-- Sequential user-creation loop of the case workflow (STEP 1): each
participant is ensured in order; the updated participants carry the resolved
xmppUsername; the first failure aborts the loop. -/
def ensureLoop (g : Gateway) (st : SysState) :
    List Participant → Except ThrownError (List Participant) × SysState
  | [] => (.ok [], st)
  | p :: rest =>
    match ensureUser g st p with
    | (.ok _ x, st') =>
      match ensureLoop g st' rest with
      | (.ok ups, st'') => (.ok ({ p with xmppUsername := some x } :: ups), st'')
      | (.error e, st'') => (.error e, st'')
    | (.fail e, st') => (.error e, st')

/-- One access-grant call inside the case workflow (STEP 3): the call is
issued and every outcome, success or failure of any kind, lets the workflow
continue. -/
def grantStep (g : Gateway) (st : SysState) : SysState :=
  match g.grantResp st.grantCalls with
  | .ok => { st with grantCalls := st.grantCalls + 1 }
  | .err _ => { st with grantCalls := st.grantCalls + 1 }
  | .exn _ => { st with grantCalls := st.grantCalls + 1 }

/-- Access-grant loop over all participants of a case. -/
def grantLoop (g : Gateway) (st : SysState) : List Participant → SysState
  | [] => st
  | _ :: rest => grantLoop g (grantStep g st) rest

/-- Participant entry of the idempotent-path response: the cached user data
when the user is still in the local cache, else a bare userId object. -/
inductive PartEntry where
  | full (userId : String) (role : Role) (displayName : Option String)
  | bare (userId : String)
deriving DecidableEq, Repr

/-- The userId carried by a response participant entry. -/
def entryId : PartEntry → String
  | .full uid _ _ => uid
  | .bare uid => uid

/-- Body of a response of POST /cases: a fresh creation, a reconstruction of
an existing case, a 400 for a missing caseId, a propagated failure, or the
marker for the sequential model that the handler would await a concurrent
creation. -/
inductive CaseRespBody where
  | fresh (caseId roomJid : String) (participants : List Participant)
  | existing (caseId roomJid : String) (participants : List PartEntry)
  | badRequest
  | failure (e : ThrownError)
  | blockedOnLock
deriving DecidableEq, Repr

/-- Reconstruction of one participant entry from the users cache. -/
def reconstructEntry (st : SysState) (uid : String) : PartEntry :=
  match mget st.users uid with
  | some u => .full uid u.role u.displayName
  | none => .bare uid

/-- Reconstruction of the participant list of a stored case. -/
def reconstructParticipants (st : SysState) (ids : List String) : List PartEntry :=
  ids.map (reconstructEntry st)

/-- Idempotent-path response for an existing case: the JID and the stored
participant ids, each reconstructed from the users cache. -/
def existingResp (appId : String) (st : SysState) (cid : String) : CaseRespBody :=
  .existing cid (createChatName appId cid true)
    (reconstructParticipants st (((mget st.cases cid).map CaseRecord.participants).getD []))

/-- Check of the room-creation outcome in STEP 2: success or a 422 conflict
continue the workflow; any other axios error and any other thrown value abort
it with that error. -/
def roomOutcomeCheck : CallOutcome → Option ThrownError
  | .ok => none
  | .exn m => some (.other m)
  | .err e => if isRoomConflict e then none else some (.axios e)

/-- POST /cases handler of demo-backend.ts in the sequential model (no
concurrent request): the falsy-caseId check, the idempotency check, the
pending-lock check, then the workflow of user creation, room creation with
conflict tolerance, per-participant grants, commit of the case record, and
release of the lock on both the success and the failure path. -/
def createCaseSeq (appId : String) (g : Gateway) (st : SysState) (cid : String)
    (ps : List Participant) (md : Option String) : CaseRespBody × SysState :=
  if cid == "" then (.badRequest, st)
  else if mhas st.cases cid then (existingResp appId st cid, st)
  else if cid ∈ st.locks then (.blockedOnLock, st)
  else
    let st0 := { st with locks := cid :: st.locks }
    match ensureLoop g st0 ps with
    | (.error e, st1) => (.failure e, { st1 with locks := st1.locks.erase cid })
    | (.ok ups, st1) =>
      let roomIdx := st1.roomCalls
      let st2 := { st1 with roomCalls := st1.roomCalls + 1 }
      match roomOutcomeCheck (g.roomResp roomIdx) with
      | some e => (.failure e, { st2 with locks := st2.locks.erase cid })
      | none =>
        let st3 := grantLoop g st2 ups
        let st4 := { st3 with
          cases := mset st3.cases cid
            { caseId := cid, participants := ups.map Participant.userId, metadata := md } }
        let st5 := { st4 with locks := st4.locks.erase cid }
        (.fresh cid (createChatName appId cid true) ups, st5)

/-- Response body of a repository delete call, as far as the claims inspect
it: the ok flag and the reason attached on the soft not-found path. -/
structure ApiRespD where
  ok : Bool := true
  reason : Option String := none
deriving DecidableEq, Repr

/-- Outcome of an external delete call before the repository error handling is
applied. -/
inductive RepoOutcome where
  | ok (r : ApiRespD)
  | axErr (e : AxiosErr)
  | exn (m : String)
deriving DecidableEq, Repr

/-- EthoraSDKService.deleteUsers error handling: a 422 whose body is a string
containing "not found" (case-sensitively) becomes a soft ok-false result;
every other failure is re-thrown unchanged. -/
def deleteUsersRepoResult (o : RepoOutcome) : Except ThrownError ApiRespD :=
  match o with
  | .ok r => .ok r
  | .exn m => .error (.other m)
  | .axErr e =>
    match e.data with
    | .str s =>
      if e.status == some 422 && containsSub s "not found" then .ok { ok := false }
      else .error (.axios e)
    | _ => .error (.axios e)

/-- EthoraSDKService.deleteChatRoom error handling: a 422 whose body is a
string whose lower-cased text contains "not found" becomes a soft ok-false
result carrying a reason; every other failure is re-thrown unchanged. -/
def deleteChatRoomRepoResult (o : RepoOutcome) : Except ThrownError ApiRespD :=
  match o with
  | .ok r => .ok r
  | .exn m => .error (.other m)
  | .axErr e =>
    match e.data with
    | .str s =>
      if e.status == some 422 && containsSub (toLowerStr s) "not found" then
        .ok { ok := false, reason := some "Chat room not found" }
      else .error (.axios e)
    | _ => .error (.axios e)

/-- Response of the DELETE /users endpoint. -/
inductive DeleteUsersResp where
  | badRequest
  | okDeleted (ids : List String)
  | serverError (e : ThrownError)
deriving DecidableEq, Repr

/-- DELETE /users handler of demo-backend.ts: reject an empty id list, call
the repository delete, and on success (including the soft not-found result)
remove each id from the local users cache; the case map is never touched. -/
def deleteUsersEndpoint (o : RepoOutcome) (st : SysState) (userIds : List String) :
    DeleteUsersResp × SysState :=
  if userIds.isEmpty then (.badRequest, st)
  else
    match deleteUsersRepoResult o with
    | .error e => (.serverError e, st)
    | .ok _ => (.okDeleted userIds, { st with users := userIds.foldl mdel st.users })

/-!
Cooperative-interleaving machine for two concurrent POST /cases requests with
the same caseId. Each step of a request runs from one suspension point (an
awaited external call, or the await of the pending-lock promise) to the next,
exactly as the single-threaded JavaScript event loop schedules the two
handlers. The external gateway is fixed to the all-success behavior of the
scenario in the claim, with responses carrying no xmppUsername, so ensureUser
resolves each created user to its plain userId.
-/

/-- Continuation state of one POST /cases request inside the interleaving
machine. userWait, roomWait and grantWait each record an outstanding external
call together with the work remaining after its response. -/
inductive RProg where
  | entry
  | userWait (current : Participant) (pending : List Participant) (finished : List Participant)
  | roomWait (finished : List Participant)
  | grantWait (togrant : List Participant) (finished : List Participant)
  | waiting
  | done (resp : CaseRespBody)
deriving DecidableEq, Repr

/-- Fixed data of a two-request scenario: the app id, the shared caseId, and
each request body. -/
structure Scenario where
  appId : String
  cid : String
  md1 : Option String
  md2 : Option String
  ps1 : List Participant
  ps2 : List Participant

/-- Synchronous run through the participant loop: participants whose cached
xmppUsername is truthy are taken from the cache without an external call; the
first uncached participant starts an external user-creation call; when none
is left the room-creation call is issued. -/
def advanceUsers (st : SysState) : List Participant → List Participant → SysState × RProg
  | finished, [] => ({ st with roomCalls := st.roomCalls + 1 }, .roomWait finished)
  | finished, p :: rest =>
    if truthy (cachedXmpp st.users p.userId) then
      advanceUsers st (finished ++ [{ p with xmppUsername := cachedXmpp st.users p.userId }]) rest
    else
      ({ st with userCalls := st.userCalls + 1 }, .userWait p rest finished)

/-- Start of the creation workflow: the pending lock is registered and the
first external call is issued inside the same synchronous block, before the
event loop can schedule the other request. -/
def startCase (cid : String) (st : SysState) (ps : List Participant) : SysState × RProg :=
  advanceUsers { st with locks := cid :: st.locks } [] ps

/-- Commit at the end of the workflow: the case record is stored, the pending
lock is released, and the response is produced, all in one synchronous
block. -/
def commitCase (appId cid : String) (md : Option String) (st : SysState)
    (finished : List Participant) : SysState × RProg :=
  ({ st with
      cases := mset st.cases cid
        { caseId := cid, participants := finished.map Participant.userId, metadata := md }
      locks := st.locks.erase cid },
    .done (.fresh cid (createChatName appId cid true) finished))

/-- One atomic step of a request in the interleaving machine. An entry step
first applies the idempotency check, then the pending-lock check, then starts
the workflow; a waiting request resumes only once the lock is gone and then
re-checks the case map; response arrivals advance the workflow; the last
grant response commits. -/
def rstep (appId cid : String) (md : Option String) (ps : List Participant)
    (st : SysState) (r : RProg) : SysState × RProg :=
  match r with
  | .entry =>
    if mhas st.cases cid then (st, .done (existingResp appId st cid))
    else if cid ∈ st.locks then (st, .waiting)
    else startCase cid st ps
  | .waiting =>
    if cid ∈ st.locks then (st, .waiting)
    else if mhas st.cases cid then (st, .done (existingResp appId st cid))
    else startCase cid st ps
  | .userWait p pending finished =>
    let p' := { p with xmppUsername := some p.userId }
    let st' := { st with users := mset st.users p.userId p' }
    advanceUsers st' (finished ++ [p']) pending
  | .roomWait finished =>
    match finished with
    | [] => commitCase appId cid md st []
    | _ :: rest => ({ st with grantCalls := st.grantCalls + 1 }, .grantWait rest finished)
  | .grantWait togrant finished =>
    match togrant with
    | [] => commitCase appId cid md st finished
    | _ :: rest => ({ st with grantCalls := st.grantCalls + 1 }, .grantWait rest finished)
  | .done resp => (st, .done resp)

/-- Joint configuration of the two requests and the shared process state. -/
structure Config2 where
  sys : SysState
  r1 : RProg
  r2 : RProg
deriving Repr

/-- One scheduler step: true steps the first request, false the second. -/
def cstep (sc : Scenario) (c : Config2) (b : Bool) : Config2 :=
  if b then
    let s := rstep sc.appId sc.cid sc.md1 sc.ps1 c.sys c.r1
    { c with sys := s.1, r1 := s.2 }
  else
    let s := rstep sc.appId sc.cid sc.md2 sc.ps2 c.sys c.r2
    { c with sys := s.1, r2 := s.2 }

/-- Run of the machine under an arbitrary finite schedule. -/
def exec2 (sc : Scenario) (sched : List Bool) (c : Config2) : Config2 :=
  sched.foldl (cstep sc) c

/-- A request with an outstanding external call of the workflow. -/
def isWorking : RProg → Bool
  | .userWait _ _ _ => true
  | .roomWait _ => true
  | .grantWait _ _ => true
  | _ => false

/-- A request that finished by committing a fresh case. -/
def isFreshDone : RProg → Bool
  | .done (.fresh _ _ _) => true
  | _ => false

/-- A request that finished by returning the existing case. -/
def isExistingDone : RProg → Bool
  | .done (.existing _ _ _) => true
  | _ => false

/-- A finished request. -/
def isDone : RProg → Bool
  | .done _ => true
  | _ => false

/-- A request that owns the creation of the case: it is either inside the
workflow or has committed it. -/
def isOwner (r : RProg) : Bool :=
  isWorking r || isFreshDone r

/-- Number of room-creation calls a request has issued so far: one once it
passed the room-creation point of the workflow, zero otherwise. -/
def roomContrib : RProg → Nat
  | .roomWait _ => 1
  | .grantWait _ _ => 1
  | .done (.fresh _ _ _) => 1
  | _ => 0

/-- Well-formedness of a finished request: the response names the shared
caseId and the JID derived from it, and is either a fresh or an existing
response. -/
def doneOk (appId cid : String) : RProg → Bool
  | .done (.fresh c j _) => c == cid && j == createChatName appId cid true
  | .done (.existing c j _) => c == cid && j == createChatName appId cid true
  | .done _ => false
  | _ => true

/-- Reachability invariant of the two-request machine: the lock is held
exactly while one request is inside the workflow, the case record exists
exactly once one request committed it, at most one request ever owns the
creation, the room-call counter equals the owners contribution, every
finished request carries the right caseId and JID, and a request that
returned the existing case really saw it in the map. -/
structure MachInv (sc : Scenario) (c : Config2) : Prop where
  locksCount : c.sys.locks.count sc.cid = (if isWorking c.r1 || isWorking c.r2 then 1 else 0)
  caseIff : mhas c.sys.cases sc.cid = (isFreshDone c.r1 || isFreshDone c.r2)
  unique : ¬(isOwner c.r1 = true ∧ isOwner c.r2 = true)
  rooms : c.sys.roomCalls = roomContrib c.r1 + roomContrib c.r2
  okDone1 : doneOk sc.appId sc.cid c.r1 = true
  okDone2 : doneOk sc.appId sc.cid c.r2 = true
  existingSaw : (isExistingDone c.r1 || isExistingDone c.r2) = true →
    mhas c.sys.cases sc.cid = true

/-! Basic lemmas about the map model, the substring test and string suffixes. -/

theorem mget_mset_self {α : Type} (m : List (String × α)) (k : String) (v : α) :
    mget (mset m k v) k = some v := by
  simp [mget, mset]

theorem mget_filter_ne {α : Type} (m : List (String × α)) (k : String) :
    mget (m.filter (fun kv => kv.1 != k)) k = none := by
  induction m with
  | nil => simp [mget]
  | cons hd tl ih =>
    by_cases h : hd.1 = k
    · simp [List.filter, h, ih]
    · simp only [List.filter]
      have hb : (hd.1 != k) = true := by simp [h]
      rw [hb]
      simp only [mget]
      have : (hd.1 == k) = false := by simp [h]
      cases hd with
      | mk a b => simp_all [mget]

theorem mget_mdel_self {α : Type} (m : List (String × α)) (k : String) :
    mget (mdel m k) k = none := by
  simpa [mdel] using mget_filter_ne m k

theorem mget_mdel_of_none {α : Type} (m : List (String × α)) (k k' : String)
    (h : mget m k = none) : mget (mdel m k') k = none := by
  induction m with
  | nil => simp [mdel, mget]
  | cons hd tl ih =>
    simp only [mget] at h
    by_cases hk : hd.1 = k
    · simp [hk] at h
    · have hb : (hd.1 == k) = false := by simp [hk]
      rw [hb] at h
      simp only [mdel, List.filter]
      by_cases hk' : hd.1 = k'
      · have : (hd.1 != k') = false := by simp [hk']
        rw [this]
        simpa [mdel] using ih h
      · have : (hd.1 != k') = true := by simp [hk']
        rw [this]
        simp only [mget, hb]
        simpa [mdel] using ih h

theorem mget_foldl_mdel_none {α : Type} (ids : List String) (m : List (String × α)) (k : String)
    (h : mget m k = none) : mget (ids.foldl mdel m) k = none := by
  induction ids generalizing m with
  | nil => simpa using h
  | cons hd tl ih =>
    simp only [List.foldl]
    exact ih (mdel m hd) (mget_mdel_of_none m k hd h)

theorem mget_foldl_mdel {α : Type} (ids : List String) (m : List (String × α)) (k : String)
    (h : k ∈ ids) : mget (ids.foldl mdel m) k = none := by
  induction ids generalizing m with
  | nil => cases h
  | cons hd tl ih =>
    simp only [List.foldl]
    rcases List.mem_cons.mp h with h1 | h2
    · subst h1
      exact mget_foldl_mdel_none tl (mdel m k) k (mget_mdel_self m k)
    · exact ih (mdel m hd) h2

theorem take_len_append (a b : List Char) : (a ++ b).take a.length = a := by
  induction a with
  | nil => simp
  | cons h t ih => simp [ih]

theorem stripSuffix_append (s d : String) : stripSuffix (s ++ d) d = s := by
  apply String.ext
  show ((s ++ d).data.take ((s ++ d).data.length - d.data.length)) = s.data
  have hdata : (s ++ d).data = s.data ++ d.data := by
    cases s; cases d; rfl
  rw [hdata, List.length_append, Nat.add_sub_cancel]
  exact take_len_append s.data d.data

theorem begWith_map (f : Char → Char) :
    ∀ n h : List Char, begWith n h = true → begWith (n.map f) (h.map f) = true := by
  intro n
  induction n with
  | nil => intro h _; simp [begWith]
  | cons a as ih =>
    intro h hb
    cases h with
    | nil => simp [begWith] at hb
    | cons b bs =>
      simp only [begWith, Bool.and_eq_true, beq_iff_eq] at hb
      simp only [List.map, begWith, Bool.and_eq_true, beq_iff_eq]
      exact ⟨by rw [hb.1], ih bs hb.2⟩

theorem containsL_map (f : Char → Char) :
    ∀ (h n : List Char), containsL n h = true → containsL (n.map f) (h.map f) = true := by
  intro h
  induction h with
  | nil => intro n hc; simpa [containsL] using begWith_map f n [] (by simpa [containsL] using hc)
  | cons b bs ih =>
    intro n hc
    simp only [containsL, Bool.or_eq_true] at hc
    rcases hc with hc | hc
    · simp only [List.map, containsL, Bool.or_eq_true]
      exact Or.inl (begWith_map f n (b :: bs) hc)
    · simp only [List.map, containsL, Bool.or_eq_true]
      exact Or.inr (ih n hc)

/-! Frame lemmas: which parts of the state each operation leaves unchanged. -/

@[simp]
theorem conflictReturn_cases (st : SysState) (u : Participant) :
    (conflictReturn st u).2.cases = st.cases := by
  unfold conflictReturn
  split <;> rfl

@[simp]
theorem conflictReturn_locks (st : SysState) (u : Participant) :
    (conflictReturn st u).2.locks = st.locks := by
  unfold conflictReturn
  split <;> rfl

@[simp]
theorem conflictReturn_roomCalls (st : SysState) (u : Participant) :
    (conflictReturn st u).2.roomCalls = st.roomCalls := by
  unfold conflictReturn
  split <;> rfl

@[simp]
theorem conflictReturn_grantCalls (st : SysState) (u : Participant) :
    (conflictReturn st u).2.grantCalls = st.grantCalls := by
  unfold conflictReturn
  split <;> rfl

@[simp]
theorem conflictReturn_userCalls (st : SysState) (u : Participant) :
    (conflictReturn st u).2.userCalls = st.userCalls := by
  unfold conflictReturn
  split <;> rfl

@[simp]
theorem conflictReturn_sent (st : SysState) (u : Participant) :
    (conflictReturn st u).2.sent = st.sent := by
  unfold conflictReturn
  split <;> rfl

theorem ensureUser_frame (g : Gateway) (st : SysState) (u : Participant) :
    (ensureUser g st u).2.cases = st.cases ∧ (ensureUser g st u).2.locks = st.locks ∧
    (ensureUser g st u).2.roomCalls = st.roomCalls ∧
    (ensureUser g st u).2.grantCalls = st.grantCalls := by
  by_cases h : truthy (cachedXmpp st.users u.userId) = true
  · simp [ensureUser, h]
  · rcases h1 : g.userResp st.userCalls with resp | e | m
    · simp [ensureUser, h, h1]
    · by_cases hc : isUserConflict e = true
      · simp [ensureUser, h, h1, hc]
      · rcases h2 : g.userResp (st.userCalls + 1) with resp2 | e2 | m2
        · simp [ensureUser, h, h1, hc, h2]
        · by_cases hc2 : isUserConflict e2 = true
          · simp [ensureUser, h, h1, hc, h2, hc2]
          · simp [ensureUser, h, h1, hc, h2, hc2]
        · simp [ensureUser, h, h1, hc, h2]
    · simp [ensureUser, h, h1]

theorem ensureLoop_frame (g : Gateway) :
    ∀ (ps : List Participant) (st : SysState),
      (ensureLoop g st ps).2.cases = st.cases ∧ (ensureLoop g st ps).2.locks = st.locks ∧
      (ensureLoop g st ps).2.roomCalls = st.roomCalls ∧
      (ensureLoop g st ps).2.grantCalls = st.grantCalls := by
  intro ps
  induction ps with
  | nil => intro st; simp [ensureLoop]
  | cons p rest ih =>
    intro st
    simp only [ensureLoop]
    rcases hu : ensureUser g st p with ⟨res, st'⟩
    have hfr := ensureUser_frame g st p
    rw [hu] at hfr
    cases res with
    | ok uid x =>
      rcases hl : ensureLoop g st' rest with ⟨lres, st''⟩
      have hfr2 := ih st'
      rw [hl] at hfr2
      cases lres <;> simp_all
    | fail e => simp_all

theorem grantStep_eq (g : Gateway) (st : SysState) :
    grantStep g st = { st with grantCalls := st.grantCalls + 1 } := by
  unfold grantStep
  split <;> rfl

theorem grantLoop_eq (g : Gateway) :
    ∀ (l : List Participant) (st : SysState),
      grantLoop g st l = { st with grantCalls := st.grantCalls + l.length } := by
  intro l
  induction l with
  | nil => intro st; simp [grantLoop]
  | cons p rest ih =>
    intro st
    simp only [grantLoop, grantStep_eq, ih, List.length_cons]
    congr 1
    omega

/-! Identification lemmas used by several claims. -/

theorem ensureLoop_ids (g : Gateway) :
    ∀ (ps : List Participant) (st : SysState) (ups : List Participant) (st' : SysState),
      ensureLoop g st ps = (.ok ups, st') →
      ups.map Participant.userId = ps.map Participant.userId := by
  intro ps
  induction ps with
  | nil =>
    intro st ups st' h
    simp only [ensureLoop] at h
    cases h
    rfl
  | cons p rest ih =>
    intro st ups st' h
    simp only [ensureLoop] at h
    split at h
    · split at h
      · cases h
        rename_i hl
        simp only [List.map, List.cons.injEq]
        exact ⟨trivial, ih _ _ _ hl⟩
      · exact absurd h (by simp)
    · exact absurd h (by simp)

theorem entryId_reconstruct (st : SysState) (uid : String) :
    entryId (reconstructEntry st uid) = uid := by
  unfold reconstructEntry
  split <;> rfl

theorem reconstruct_ids (st : SysState) (ids : List String) :
    (reconstructParticipants st ids).map entryId = ids := by
  unfold reconstructParticipants
  induction ids with
  | nil => rfl
  | cons hd tl ih => simp [entryId_reconstruct, ih]

/-! Lemmas about the fixed name pools of generateRandomUserData. -/

theorem poolFirst_getD_mem (r : Role) (k : Nat) :
    (poolFirst r).getD (k % 5) "User" ∈ poolFirst r := by
  have h5 : k % 5 = 0 ∨ k % 5 = 1 ∨ k % 5 = 2 ∨ k % 5 = 3 ∨ k % 5 = 4 := by omega
  cases r <;> rcases h5 with h | h | h | h | h <;> rw [h] <;> decide

theorem poolFirst_getD_ne (r : Role) (k : Nat) :
    (poolFirst r).getD (k % 5) "User" ≠ "" := by
  have h5 : k % 5 = 0 ∨ k % 5 = 1 ∨ k % 5 = 2 ∨ k % 5 = 3 ∨ k % 5 = 4 := by omega
  cases r <;> rcases h5 with h | h | h | h | h <;> rw [h] <;> decide

theorem poolLast_getD_mem (r : Role) (k : Nat) :
    (poolLast r).getD (k % 5) "User" ∈ poolLast r := by
  have h5 : k % 5 = 0 ∨ k % 5 = 1 ∨ k % 5 = 2 ∨ k % 5 = 3 ∨ k % 5 = 4 := by omega
  cases r <;> rcases h5 with h | h | h | h | h <;> rw [h] <;> decide

theorem poolLast_getD_len (r : Role) (k : Nat) :
    2 ≤ ((poolLast r).getD (k % 5) "User").length := by
  have h5 : k % 5 = 0 ∨ k % 5 = 1 ∨ k % 5 = 2 ∨ k % 5 = 3 ∨ k % 5 = 4 := by omega
  cases r <;> rcases h5 with h | h | h | h | h <;> rw [h] <;> decide

/-- Name resolution of createUserDirect when a truthy firstName and an
acceptable lastName are supplied: both are passed through unchanged. -/
theorem sentNames_firstTruthy (d : UserData)
    (hf : truthy d.firstName = true) (hl : truthy d.lastName = true)
    (hlen : ¬ (d.lastName.getD "").length < 2) :
    sentNames d = (d.firstName.getD "", d.lastName.getD "") := by
  have hne : d.lastName.getD "" ≠ "" := by
    cases hld : d.lastName with
    | none => rw [hld] at hl; simp [truthy] at hl
    | some s => rw [hld] at hl; simpa [truthy] using hl
  have hbeq : (d.lastName.getD "" == "") = false := by simp [hne]
  have hdec : decide ((d.lastName.getD "").length < 2) = false := decide_eq_false hlen
  simp [sentNames, hf, hl, hbeq, hdec]

/-- Names sent by the retry path: since the pool entries are nonempty and at
least 2 characters long, createUserDirect passes the pool picks through
unchanged. -/
theorem sentNames_retryUD (g : Gateway) (n : Nat) (r : Role) :
    sentNames (retryUD g n r) =
      ((poolFirst r).getD ((g.randPick n).1 % 5) "User",
        (poolLast r).getD ((g.randPick n).2.1 % 5) "User") := by
  have hfn := poolFirst_getD_ne r (g.randPick n).1
  have hlenp := poolLast_getD_len r (g.randPick n).2.1
  have hln : (poolLast r).getD ((g.randPick n).2.1 % 5) "User" ≠ "" := by
    intro hx
    rw [hx] at hlenp
    simp at hlenp
  have h1 : truthy (retryUD g n r).firstName = true := by
    simp only [retryUD, truthy]
    simpa using hfn
  have h2 : truthy (retryUD g n r).lastName = true := by
    simp only [retryUD, truthy]
    simpa using hln
  have h3 : ¬ ((retryUD g n r).lastName.getD "").length < 2 := by
    simp only [retryUD, Option.getD_some]
    omega
  rw [sentNames_firstTruthy (retryUD g n r) h1 h2 h3]
  simp [retryUD]

/-! Shared computation lemma for the idempotent path of POST /cases. -/

theorem createCaseSeq_existing (appId : String) (g : Gateway) (st : SysState) (cid : String)
    (ps : List Participant) (md : Option String) (rec : CaseRecord)
    (hcid : cid ≠ "") (hrec : mget st.cases cid = some rec) :
    createCaseSeq appId g st cid ps md =
      (.existing cid (createChatName appId cid true)
        (reconstructParticipants st rec.participants), st) := by
  have h0 : (cid == "") = false := by simp [hcid]
  have h1 : mhas st.cases cid = true := by simp [mhas, hrec]
  simp [createCaseSeq, h0, h1, existingResp, hrec]

/-! Shared concrete fixtures used by the witness theorems. -/

/-- Gateway whose calls all succeed, with user-creation responses carrying no
xmppUsername. -/
def gwAllOk : Gateway :=
  { userResp := fun _ => .ok {}
    roomResp := fun _ => .ok
    grantResp := fun _ => .ok
    freshEmail := fun _ => "fresh@example.com"
    randPick := fun _ => (0, 0, "rand@example.com") }

/-- Empty process state. -/
def stEmpty : SysState := ⟨[], [], [], 0, 0, 0, []⟩

/-- Stored record of an already-created case. -/
def recCase1 : CaseRecord := { caseId := "case-1", participants := ["u1"] }

/-- State in which case-1 already exists. -/
def stWithCase : SysState := { stEmpty with cases := [("case-1", recCase1)] }

/-- A plain patient participant. -/
def uPat : Participant := { userId := "u1", role := .patient }

/-- Conflict error response of the external user-creation endpoint. -/
def errConflict : AxiosErr :=
  { status := some 422
    data := .obj (some "User already exists")
    message := "Request failed with status code 422" }

/-- Non-conflict server error of the external user-creation endpoint. -/
def errServer : AxiosErr :=
  { status := some 500
    data := .obj (some "internal error")
    message := "Request failed with status code 500" }

/-- Gateway whose user-creation calls always report the conflict error. -/
def gwConflict : Gateway := { gwAllOk with userResp := fun _ => .err errConflict }

/-- Gateway whose user-creation calls always fail with the non-conflict
error. -/
def gwUserFail : Gateway := { gwAllOk with userResp := fun _ => .err errServer }

/-- Claim C1: when a Case record already exists for the caseId, POST /cases
returns the existing record, reconstructed from local state with the same
roomJid and the stored participant id list, and leaves the state untouched,
so no external user-creation or room-creation call is issued. -/
theorem spec_C1 (appId : String) (g : Gateway) (st : SysState) (cid : String)
    (ps : List Participant) (md : Option String) (rec : CaseRecord)
    (hcid : cid ≠ "") (hrec : mget st.cases cid = some rec) :
    createCaseSeq appId g st cid ps md =
      (.existing cid (createChatName appId cid true)
        (reconstructParticipants st rec.participants), st) ∧
    (reconstructParticipants st rec.participants).map entryId = rec.participants :=
  ⟨createCaseSeq_existing appId g st cid ps md rec hcid hrec,
    reconstruct_ids st rec.participants⟩

/-- Witness for claim C1 at a concrete state holding case-1. -/
theorem spec_C1_witness :
    createCaseSeq "app" gwAllOk stWithCase "case-1" [] none =
      (.existing "case-1" (createChatName "app" "case-1" true)
        (reconstructParticipants stWithCase recCase1.participants), stWithCase) ∧
    (reconstructParticipants stWithCase recCase1.participants).map entryId =
      recCase1.participants :=
  spec_C1 "app" gwAllOk stWithCase "case-1" [] none recCase1 (by decide) (by decide)

/-- Claim C8: the full chat name with the JID domain stripped equals the short
chat name, and equivalently the full name is the short name with the fixed
domain suffix appended. -/
theorem spec_C8 (appId cid : String) :
    stripSuffix (createChatName appId cid true) ETHORA_JID_DOMAIN =
      createChatName appId cid false ∧
    createChatName appId cid true = createChatName appId cid false ++ ETHORA_JID_DOMAIN := by
  constructor
  · have h : createChatName appId cid true =
        (appId ++ "_" ++ cid) ++ ETHORA_JID_DOMAIN := by simp [createChatName]
    have h2 : createChatName appId cid false = appId ++ "_" ++ cid := by
      simp [createChatName]
    rw [h, h2]
    exact stripSuffix_append _ _
  · simp [createChatName]

/-- Claim C6: when the user-creation call fails with a conflict (status 422
and an error text containing "already exist") and no truthy xmppUsername is
cached, ensureUser succeeds without invoking the retry path (exactly one call
is recorded) and returns the locally-derived plain userId as the external
identifier, storing the participant in the cache. -/
theorem spec_C6 (g : Gateway) (st : SysState) (u : Participant) (e : AxiosErr)
    (hnc : truthy (cachedXmpp st.users u.userId) = false)
    (h1 : g.userResp st.userCalls = .err e)
    (hc : isUserConflict e = true) :
    ensureUser g st u =
      (.ok u.userId u.userId,
        { st with
            users := mset st.users u.userId u
            userCalls := st.userCalls + 1
            sent := st.sent ++
              [payloadFor u.userId (buildUserData u) (g.freshEmail st.userCalls)] }) := by
  simp [ensureUser, hnc, h1, hc, conflictReturn]

/-- Witness for claim C6 on the conflict gateway. -/
theorem spec_C6_witness :
    ensureUser gwConflict stEmpty uPat =
      (.ok uPat.userId uPat.userId,
        { stEmpty with
            users := mset stEmpty.users uPat.userId uPat
            userCalls := stEmpty.userCalls + 1
            sent := stEmpty.sent ++
              [payloadFor uPat.userId (buildUserData uPat)
                (gwConflict.freshEmail stEmpty.userCalls)] }) :=
  spec_C6 gwConflict stEmpty uPat errConflict (by decide) rfl (by decide)

/-- Claim C7 (amended): for a participant with a truthy firstName whose
lastName is missing, empty, or shorter than 2 characters, the profile sent to
the user-creation endpoint carries lastName "User", while the locally
committed cache entry retains the participant and its original lastName field
unchanged. -/
theorem spec_C7 (g : Gateway) (st : SysState) (u : Participant)
    (resp : CreateUserResp)
    (hf : truthy u.firstName = true)
    (hnc : truthy (cachedXmpp st.users u.userId) = false)
    (hshort : (u.lastName.getD "").length < 2)
    (hresp : g.userResp st.userCalls = .ok resp) :
    (payloadFor u.userId (buildUserData u) (g.freshEmail st.userCalls)).lastName = "User" ∧
    (ensureUser g st u).2.sent =
      st.sent ++ [payloadFor u.userId (buildUserData u) (g.freshEmail st.userCalls)] ∧
    mget (ensureUser g st u).2.users u.userId =
      some { u with xmppUsername := some (extractXmpp u.userId resp) } ∧
    Participant.lastName { u with xmppUsername := some (extractXmpp u.userId resp) } =
      u.lastName := by
  have hfd : truthy (buildUserData u).firstName = true := by
    simp [buildUserData, hf]
  have hb : (buildUserData u).lastName = none ∨ (buildUserData u).lastName = some "User" := by
    cases hld : u.lastName with
    | none => exact Or.inl (by simp [buildUserData, hld])
    | some l =>
      by_cases hle : (l == "") = true
      · exact Or.inl (by simp [buildUserData, hld, hle])
      · refine Or.inr ?_
        have hlen : l.length < 2 := by
          rw [hld] at hshort
          simpa using hshort
        have h2 : ¬ 2 ≤ l.length := by omega
        simp [buildUserData, hld, hle, h2]
  have hsent : (payloadFor u.userId (buildUserData u)
      (g.freshEmail st.userCalls)).lastName = "User" := by
    rcases hb with hb | hb
    · have hTN : truthy (none : Option String) = false := rfl
      have hE1 : (("" : String) == "") = true := by decide
      simp [payloadFor, sentNames, hfd, hb, hTN, hE1]
    · have hTU : truthy (some "User") = true := by decide
      have hU1 : (("User" : String) == "") = false := by decide
      have hU2 : decide (("User" : String).length < 2) = false := by decide
      simp [payloadFor, sentNames, hfd, hb, hTU, hU1, hU2]
  refine ⟨hsent, ?_, ?_, rfl⟩
  · simp [ensureUser, hnc, hresp]
  · simp [ensureUser, hnc, hresp, mget_mset_self]

/-- Participant with a firstName and a one-character lastName. -/
def uShortA : Participant :=
  { userId := "u1", role := .patient, firstName := some "Ann", lastName := some "X" }

/-- Participant with a two-word displayName, no firstName, and a one-character
lastName. -/
def uShortB : Participant :=
  { userId := "u2", role := .patient, displayName := some "Ann Smith",
    lastName := some "X" }

/-- Counterexample to claim C7 as stated: for a participant with lastName "X"
the locally committed profile keeps lastName "X" instead of the claimed
replacement with "User"; and for a participant whose lastName is missing only
from the firstName field (displayName "Ann Smith", lastName "X" ignored by
createUserDirect without a firstName), the profile actually sent carries the
displayName-derived surname "Smith", not "User". -/
theorem spec_C7_counterexample :
    ((mget (ensureUser gwAllOk stEmpty uShortA).2.users "u1").map Participant.lastName =
        some (some "X") ∧ some (some "X") ≠ some (some "User")) ∧
    ((ensureUser gwAllOk stEmpty uShortB).2.sent.map SentProfile.lastName = ["Smith"] ∧
      "Smith" ≠ "User") := by
  refine ⟨⟨by decide, by decide⟩, ⟨by decide, by decide⟩⟩

/-- Claim C4: when the first user-creation call fails with a non-conflict
axios error and the single retry fails with a non-conflict axios error too,
ensureUser issues exactly two calls, the retry profile draws its first and
last name from the fixed per-role pools, and the retry error is propagated to
the caller. -/
theorem spec_C4 (g : Gateway) (st : SysState) (u : Participant) (e1 e2 : AxiosErr)
    (hnc : truthy (cachedXmpp st.users u.userId) = false)
    (h1 : g.userResp st.userCalls = .err e1) (hc1 : isUserConflict e1 = false)
    (h2 : g.userResp (st.userCalls + 1) = .err e2) (hc2 : isUserConflict e2 = false) :
    (ensureUser g st u).1 = .fail (.axios e2) ∧
    (ensureUser g st u).2.userCalls = st.userCalls + 2 ∧
    (ensureUser g st u).2.sent = st.sent ++
      [payloadFor u.userId (buildUserData u) (g.freshEmail st.userCalls),
        payloadFor u.userId (retryUD g (st.userCalls + 1) u.role)
          (g.freshEmail (st.userCalls + 1))] ∧
    (payloadFor u.userId (retryUD g (st.userCalls + 1) u.role)
        (g.freshEmail (st.userCalls + 1))).firstName ∈ poolFirst u.role ∧
    (payloadFor u.userId (retryUD g (st.userCalls + 1) u.role)
        (g.freshEmail (st.userCalls + 1))).lastName ∈ poolLast u.role := by
  refine ⟨?_, ?_, ?_, ?_, ?_⟩
  · simp [ensureUser, hnc, h1, hc1, h2, hc2]
  · simp [ensureUser, hnc, h1, hc1, h2, hc2]
  · simp [ensureUser, hnc, h1, hc1, h2, hc2]
  · rw [show (payloadFor u.userId (retryUD g (st.userCalls + 1) u.role)
          (g.freshEmail (st.userCalls + 1))).firstName =
        (sentNames (retryUD g (st.userCalls + 1) u.role)).1 from rfl,
      sentNames_retryUD]
    exact poolFirst_getD_mem u.role (g.randPick (st.userCalls + 1)).1
  · rw [show (payloadFor u.userId (retryUD g (st.userCalls + 1) u.role)
          (g.freshEmail (st.userCalls + 1))).lastName =
        (sentNames (retryUD g (st.userCalls + 1) u.role)).2 from rfl,
      sentNames_retryUD]
    exact poolLast_getD_mem u.role (g.randPick (st.userCalls + 1)).2.1

/-- Witness for claim C4 on the always-failing gateway. -/
theorem spec_C4_witness :
    (ensureUser gwUserFail stEmpty uPat).1 = .fail (.axios errServer) ∧
    (ensureUser gwUserFail stEmpty uPat).2.userCalls = stEmpty.userCalls + 2 ∧
    (ensureUser gwUserFail stEmpty uPat).2.sent = stEmpty.sent ++
      [payloadFor uPat.userId (buildUserData uPat) (gwUserFail.freshEmail stEmpty.userCalls),
        payloadFor uPat.userId (retryUD gwUserFail (stEmpty.userCalls + 1) uPat.role)
          (gwUserFail.freshEmail (stEmpty.userCalls + 1))] ∧
    (payloadFor uPat.userId (retryUD gwUserFail (stEmpty.userCalls + 1) uPat.role)
        (gwUserFail.freshEmail (stEmpty.userCalls + 1))).firstName ∈ poolFirst uPat.role ∧
    (payloadFor uPat.userId (retryUD gwUserFail (stEmpty.userCalls + 1) uPat.role)
        (gwUserFail.freshEmail (stEmpty.userCalls + 1))).lastName ∈ poolLast uPat.role :=
  spec_C4 gwUserFail stEmpty uPat errServer errServer (by decide) rfl (by decide) rfl (by decide)

theorem mhas_mset_self {α : Type} (m : List (String × α)) (k : String) (v : α) :
    mhas (mset m k v) k = true := by
  simp [mhas, mget_mset_self]

/-- Claim C5: when every participant resolves and the room call succeeds, the
created case resolves successfully whatever the grant outcomes are (the
gateway grant responses are unconstrained), and the committed record and the
response carry all participants. -/
theorem spec_C5 (appId : String) (g : Gateway) (st : SysState) (cid : String)
    (ps : List Participant) (md : Option String) (ups : List Participant) (st1 : SysState)
    (hcid : cid ≠ "") (hnocase : mhas st.cases cid = false) (hnolock : cid ∉ st.locks)
    (hloop : ensureLoop g { st with locks := cid :: st.locks } ps = (.ok ups, st1))
    (hroom : g.roomResp st1.roomCalls = .ok) :
    (createCaseSeq appId g st cid ps md).1 =
      .fresh cid (createChatName appId cid true) ups ∧
    mget (createCaseSeq appId g st cid ps md).2.cases cid =
      some { caseId := cid, participants := ups.map Participant.userId, metadata := md } ∧
    ups.map Participant.userId = ps.map Participant.userId := by
  have h0 : (cid == "") = false := by simp [hcid]
  refine ⟨?_, ?_, ensureLoop_ids g ps _ ups st1 hloop⟩
  · simp [createCaseSeq, h0, hnocase, hnolock, hloop, roomOutcomeCheck, hroom]
  · simp [createCaseSeq, h0, hnocase, hnolock, hloop, roomOutcomeCheck, hroom,
      grantLoop_eq, mget_mset_self]

/-- Participants A, B, C for the grant-failure scenario. -/
def pA : Participant := { userId := "a", role := .patient }

/-- Participant B, whose grant call fails in the scenario. -/
def pB : Participant := { userId := "b", role := .practitioner }

/-- Participant C of the grant-failure scenario. -/
def pC : Participant := { userId := "c", role := .admin }

/-- The three participants of the grant-failure scenario. -/
def ps3 : List Participant := [pA, pB, pC]

/-- Gateway on which exactly the second access-grant call (participant B)
fails and everything else succeeds. -/
def gwGrantB : Gateway :=
  { gwAllOk with grantResp := fun n => if n == 1 then .err errServer else .ok }

/-- Lock-holding start state of the grant-failure scenario. -/
def st0c : SysState := { stEmpty with locks := ["c3"] }

/-- Participants as resolved by the user-creation loop in the scenario. -/
def ups3 : List Participant :=
  [{ pA with xmppUsername := some "a" }, { pB with xmppUsername := some "b" },
    { pC with xmppUsername := some "c" }]

/-- State after the user-creation loop of the scenario. -/
def st1c : SysState := (ensureLoop gwGrantB st0c ps3).2

/-- Witness for claim C5: the grant for B fails, yet the case resolves with
all three participants committed. -/
theorem spec_C5_witness :
    (createCaseSeq "app" gwGrantB stEmpty "c3" ps3 none).1 =
      .fresh "c3" (createChatName "app" "c3" true) ups3 ∧
    mget (createCaseSeq "app" gwGrantB stEmpty "c3" ps3 none).2.cases "c3" =
      some { caseId := "c3", participants := ups3.map Participant.userId, metadata := none } ∧
    ups3.map Participant.userId = ps3.map Participant.userId :=
  spec_C5 "app" gwGrantB stEmpty "c3" ps3 none ups3 st1c (by decide) (by decide)
    (by decide) rfl (by decide)


/-- Claim C3: for a fresh caseId, a user-creation failure (after its retry) or
a non-conflict room-creation failure surfaces that error to the caller while
no Case record is committed and the pending lock is released; and a Case
record is committed only when the workflow ran the room-creation call and one
grant call per participant. -/
theorem spec_C3 (appId : String) (g : Gateway) (st : SysState) (cid : String)
    (ps : List Participant) (md : Option String)
    (hcid : cid ≠ "") (hnocase : mhas st.cases cid = false) (hnolock : cid ∉ st.locks) :
    (∀ e st', createCaseSeq appId g st cid ps md = (.failure e, st') →
      mhas st'.cases cid = false ∧ cid ∉ st'.locks) ∧
    (∀ e st1, ensureLoop g { st with locks := cid :: st.locks } ps = (.error e, st1) →
      (createCaseSeq appId g st cid ps md).1 = .failure e) ∧
    (∀ ups st1 e, ensureLoop g { st with locks := cid :: st.locks } ps = (.ok ups, st1) →
      roomOutcomeCheck (g.roomResp st1.roomCalls) = some e →
      (createCaseSeq appId g st cid ps md).1 = .failure e) ∧
    (∀ jid ups st', createCaseSeq appId g st cid ps md = (.fresh cid jid ups, st') →
      mhas st'.cases cid = true ∧ st'.roomCalls = st.roomCalls + 1 ∧
      st'.grantCalls = st.grantCalls + ps.length) := by
  have h0 : (cid == "") = false := by simp [hcid]
  rcases hloop : ensureLoop g { st with locks := cid :: st.locks } ps with ⟨lres, st1⟩
  have hfr := ensureLoop_frame g ps { st with locks := cid :: st.locks }
  rw [hloop] at hfr
  have hcs : st1.cases = st.cases := hfr.1
  have hlk : st1.locks = cid :: st.locks := hfr.2.1
  have hrm : st1.roomCalls = st.roomCalls := hfr.2.2.1
  have hgc : st1.grantCalls = st.grantCalls := hfr.2.2.2
  cases lres with
  | error e0 =>
    refine ⟨?_, ?_, ?_, ?_⟩
    · intro e st' heq
      simp [createCaseSeq, h0, hnocase, hnolock, hloop] at heq
      obtain ⟨-, hst⟩ := heq
      subst hst
      constructor
      · show mhas st1.cases cid = false
        rw [hcs]
        exact hnocase
      · show cid ∉ st1.locks.erase cid
        rw [hlk, List.erase_cons_head]
        exact hnolock
    · intro e st1' heq
      injection heq with hA hB
      injection hA with hA
      subst hA
      simp [createCaseSeq, h0, hnocase, hnolock, hloop]
    · intro ups st1' e heq
      exact absurd heq (by simp)
    · intro jid ups st' heq
      simp [createCaseSeq, h0, hnocase, hnolock, hloop] at heq
  | ok ups0 =>
    rcases hrc : roomOutcomeCheck (g.roomResp st1.roomCalls) with _ | e0
    · have hrun : createCaseSeq appId g st cid ps md =
          (.fresh cid (createChatName appId cid true) ups0,
            { grantLoop g { st1 with roomCalls := st1.roomCalls + 1 } ups0 with
                cases := mset
                  (grantLoop g { st1 with roomCalls := st1.roomCalls + 1 } ups0).cases cid
                  { caseId := cid, participants := ups0.map Participant.userId, metadata := md }
                locks := (grantLoop g
                  { st1 with roomCalls := st1.roomCalls + 1 } ups0).locks.erase cid }) := by
        simp [createCaseSeq, h0, hnocase, hnolock, hloop, hrc]
      refine ⟨?_, ?_, ?_, ?_⟩
      · intro e st' heq
        rw [hrun] at heq
        injection heq with hA hB
        exact absurd hA (by simp)
      · intro e st1' heq
        exact absurd heq (by simp)
      · intro ups st1' e heq hrc2
        injection heq with hA hB
        injection hA with hA
        subst hA
        subst hB
        rw [hrc] at hrc2
        exact absurd hrc2 (by simp)
      · intro jid ups st' heq
        rw [hrun] at heq
        injection heq with hA hB
        subst hB
        refine ⟨?_, ?_, ?_⟩
        · exact mhas_mset_self _ _ _
        · show (grantLoop g { st1 with roomCalls := st1.roomCalls + 1 } ups0).roomCalls =
            st.roomCalls + 1
          rw [grantLoop_eq]
          show st1.roomCalls + 1 = st.roomCalls + 1
          rw [hrm]
        · show (grantLoop g { st1 with roomCalls := st1.roomCalls + 1 } ups0).grantCalls =
            st.grantCalls + ps.length
          rw [grantLoop_eq]
          show st1.grantCalls + ups0.length = st.grantCalls + ps.length
          have hids := ensureLoop_ids g ps _ ups0 st1 hloop
          have hlen : ups0.length = ps.length := by
            have := congrArg List.length hids
            simpa using this
          rw [hgc, hlen]
    · refine ⟨?_, ?_, ?_, ?_⟩
      · intro e st' heq
        simp [createCaseSeq, h0, hnocase, hnolock, hloop, hrc] at heq
        obtain ⟨-, hst⟩ := heq
        subst hst
        constructor
        · show mhas st1.cases cid = false
          rw [hcs]
          exact hnocase
        · show cid ∉ st1.locks.erase cid
          rw [hlk, List.erase_cons_head]
          exact hnolock
      · intro e st1' heq
        exact absurd heq (by simp)
      · intro ups st1' e heq hrc2
        injection heq with hA hB
        injection hA with hA
        subst hA
        subst hB
        rw [hrc] at hrc2
        injection hrc2 with hrc2
        subst hrc2
        simp [createCaseSeq, h0, hnocase, hnolock, hloop, hrc]
      · intro jid ups st' heq
        simp [createCaseSeq, h0, hnocase, hnolock, hloop, hrc] at heq

/-- Witness for claim C3: with a gateway whose user creation always fails
with a non-conflict error, the workflow fails, commits nothing and releases
the lock. -/
theorem spec_C3_witness :
    (∀ e st', createCaseSeq "app" gwUserFail stEmpty "c9" [uPat] none = (.failure e, st') →
      mhas st'.cases "c9" = false ∧ "c9" ∉ st'.locks) ∧
    (∀ e st1, ensureLoop gwUserFail { stEmpty with locks := "c9" :: stEmpty.locks } [uPat] =
        (.error e, st1) →
      (createCaseSeq "app" gwUserFail stEmpty "c9" [uPat] none).1 = .failure e) ∧
    (∀ ups st1 e, ensureLoop gwUserFail { stEmpty with locks := "c9" :: stEmpty.locks } [uPat] =
        (.ok ups, st1) →
      roomOutcomeCheck (gwUserFail.roomResp st1.roomCalls) = some e →
      (createCaseSeq "app" gwUserFail stEmpty "c9" [uPat] none).1 = .failure e) ∧
    (∀ jid ups st', createCaseSeq "app" gwUserFail stEmpty "c9" [uPat] none =
        (.fresh "c9" jid ups, st') →
      mhas st'.cases "c9" = true ∧ st'.roomCalls = stEmpty.roomCalls + 1 ∧
      st'.grantCalls = stEmpty.grantCalls + [uPat].length) :=
  spec_C3 "app" gwUserFail stEmpty "c9" [uPat] none (by decide) (by decide) (by decide)

/-- Lower-casing a string keeps an already lower-case substring: a body that
contains "not found" literally still contains it after toLowerCase. -/
theorem containsSub_toLower_notfound (s : String) (h : containsSub s "not found" = true) :
    containsSub (toLowerStr s) "not found" = true := by
  have hmap : ("not found".data.map Char.toLower) = "not found".data := by decide
  unfold containsSub at h
  unfold containsSub toLowerStr
  have h2 := containsL_map Char.toLower s.data ("not found".data) h
  rw [hmap] at h2
  exact h2

/-- Claim C9 (amended): on a 422 failure, deleteUsers returns the soft
ok-false result exactly when the body is a string containing "not found"
case-sensitively, and deleteChatRoom returns the soft result with its reason
exactly when the body is a string whose lower-cased text contains
"not found"; a body literally containing "not found" triggers both soft
results; every other failure, with a non-422 status, a non-string body or a
non-HTTP error, is re-thrown unchanged. -/
theorem spec_C9 (e : AxiosErr) (s : String)
    (hs : e.data = .str s) (h422 : e.status = some 422) :
    (containsSub s "not found" = true →
      deleteUsersRepoResult (.axErr e) = .ok { ok := false, reason := none } ∧
      deleteChatRoomRepoResult (.axErr e) =
        .ok { ok := false, reason := some "Chat room not found" }) ∧
    (containsSub s "not found" = false →
      deleteUsersRepoResult (.axErr e) = .error (.axios e)) ∧
    (containsSub (toLowerStr s) "not found" = true →
      deleteChatRoomRepoResult (.axErr e) =
        .ok { ok := false, reason := some "Chat room not found" }) ∧
    (containsSub (toLowerStr s) "not found" = false →
      deleteChatRoomRepoResult (.axErr e) = .error (.axios e)) ∧
    (∀ e2 : AxiosErr, e2.status ≠ some 422 →
      deleteUsersRepoResult (.axErr e2) = .error (.axios e2) ∧
      deleteChatRoomRepoResult (.axErr e2) = .error (.axios e2)) ∧
    (∀ e2 : AxiosErr, (∀ s2, e2.data ≠ .str s2) →
      deleteUsersRepoResult (.axErr e2) = .error (.axios e2) ∧
      deleteChatRoomRepoResult (.axErr e2) = .error (.axios e2)) ∧
    (∀ m, deleteUsersRepoResult (.exn m) = .error (.other m) ∧
      deleteChatRoomRepoResult (.exn m) = .error (.other m)) := by
  cases e with
  | mk status data message =>
    have hd : data = .str s := hs
    have hst : status = some 422 := h422
    subst hd
    subst hst
    refine ⟨?_, ?_, ?_, ?_, ?_, ?_, ?_⟩
    · intro hcon
      constructor
      · simp [deleteUsersRepoResult, hcon]
      · have hlow := containsSub_toLower_notfound s hcon
        simp [deleteChatRoomRepoResult, hlow]
    · intro hcon
      simp [deleteUsersRepoResult, hcon]
    · intro hcon
      simp [deleteChatRoomRepoResult, hcon]
    · intro hcon
      simp [deleteChatRoomRepoResult, hcon]
    · intro e2 hne2
      have hb : (e2.status == some 422) = false := by
        simpa using hne2
      cases e2 with
      | mk st2 d2 m2 =>
        have hb2 : (st2 == some 422) = false := hb
        cases d2 with
        | obj o => exact ⟨rfl, rfl⟩
        | nodata => exact ⟨rfl, rfl⟩
        | str s2 =>
          constructor
          · simp [deleteUsersRepoResult, hb2]
          · simp [deleteChatRoomRepoResult, hb2]
    · intro e2 hns
      cases e2 with
      | mk st2 d2 m2 =>
        cases d2 with
        | obj o => exact ⟨rfl, rfl⟩
        | nodata => exact ⟨rfl, rfl⟩
        | str s2 => exact absurd rfl (hns s2)
    · intro m
      exact ⟨rfl, rfl⟩

/-- A 422 delete failure whose string body actually says "Room not found". -/
def errNotFound : AxiosErr :=
  { status := some 422, data := .str "Room not found", message := "unprocessable" }

/-- Witness for claim C9 on the concrete not-found body. -/
theorem spec_C9_witness :
    (containsSub "Room not found" "not found" = true →
      deleteUsersRepoResult (.axErr errNotFound) = .ok { ok := false, reason := none } ∧
      deleteChatRoomRepoResult (.axErr errNotFound) =
        .ok { ok := false, reason := some "Chat room not found" }) ∧
    (containsSub "Room not found" "not found" = false →
      deleteUsersRepoResult (.axErr errNotFound) = .error (.axios errNotFound)) ∧
    (containsSub (toLowerStr "Room not found") "not found" = true →
      deleteChatRoomRepoResult (.axErr errNotFound) =
        .ok { ok := false, reason := some "Chat room not found" }) ∧
    (containsSub (toLowerStr "Room not found") "not found" = false →
      deleteChatRoomRepoResult (.axErr errNotFound) = .error (.axios errNotFound)) ∧
    (∀ e2 : AxiosErr, e2.status ≠ some 422 →
      deleteUsersRepoResult (.axErr e2) = .error (.axios e2) ∧
      deleteChatRoomRepoResult (.axErr e2) = .error (.axios e2)) ∧
    (∀ e2 : AxiosErr, (∀ s2, e2.data ≠ .str s2) →
      deleteUsersRepoResult (.axErr e2) = .error (.axios e2) ∧
      deleteChatRoomRepoResult (.axErr e2) = .error (.axios e2)) ∧
    (∀ m, deleteUsersRepoResult (.exn m) = .error (.other m) ∧
      deleteChatRoomRepoResult (.exn m) = .error (.other m)) :=
  spec_C9 errNotFound "Room not found" rfl rfl

/-- A 422 delete failure whose string body is upper-case "NOT FOUND". -/
def errNotFoundUpper : AxiosErr :=
  { status := some 422, data := .str "NOT FOUND", message := "unprocessable" }

/-- Counterexample to claim C9 as stated: the body "NOT FOUND" does not
contain "not found", so by the claim both deletes should re-throw, yet
deleteChatRoom returns the soft ok-false result (while deleteUsers indeed
re-throws). -/
theorem spec_C9_counterexample :
    containsSub "NOT FOUND" "not found" = false ∧
    deleteChatRoomRepoResult (.axErr errNotFoundUpper) =
      .ok { ok := false, reason := some "Chat room not found" } ∧
    deleteUsersRepoResult (.axErr errNotFoundUpper) = .error (.axios errNotFoundUpper) :=
  ⟨by decide, rfl, rfl⟩

/-- Claim C10: a successful DELETE /users (including the soft not-found repo
result) removes exactly the given ids from the users cache, leaves the case
map untouched, and a later createCase for an existing case returns each
deleted participant as a bare userId entry. -/
theorem spec_C10 (o : RepoOutcome) (st : SysState) (ids : List String) (r : ApiRespD)
    (hne : ids ≠ []) (hok : deleteUsersRepoResult o = .ok r) :
    (deleteUsersEndpoint o st ids).1 = .okDeleted ids ∧
    (∀ id ∈ ids, mget (deleteUsersEndpoint o st ids).2.users id = none) ∧
    (deleteUsersEndpoint o st ids).2.cases = st.cases ∧
    (∀ appId g cid rec2 ps md, cid ≠ "" →
      mget (deleteUsersEndpoint o st ids).2.cases cid = some rec2 →
      (createCaseSeq appId g (deleteUsersEndpoint o st ids).2 cid ps md).1 =
        .existing cid (createChatName appId cid true)
          (reconstructParticipants (deleteUsersEndpoint o st ids).2 rec2.participants) ∧
      (∀ uid ∈ rec2.participants, uid ∈ ids →
        reconstructEntry (deleteUsersEndpoint o st ids).2 uid = .bare uid)) := by
  have hemp : ids.isEmpty = false := by
    cases ids with
    | nil => exact absurd rfl hne
    | cons a as => rfl
  have hend : deleteUsersEndpoint o st ids =
      (.okDeleted ids, { st with users := ids.foldl mdel st.users }) := by
    simp [deleteUsersEndpoint, hemp, hok]
  rw [hend]
  refine ⟨rfl, ?_, rfl, ?_⟩
  · intro id hid
    exact mget_foldl_mdel ids st.users id hid
  · intro appId g cid rec2 ps md hcid hrec
    constructor
    · have := createCaseSeq_existing appId g { st with users := ids.foldl mdel st.users }
        cid ps md rec2 hcid hrec
      rw [this]
    · intro uid huid hin
      simp [reconstructEntry, mget_foldl_mdel ids st.users uid hin]

/-- State with one user and one case for the bulk-delete scenario. -/
def stC10 : SysState :=
  { stEmpty with cases := [("case-1", recCase1)], users := [("u1", uPat)] }

/-- Witness for claim C10: deleting user u1 empties its cache entry, leaves
the case record, and the later createCase returns u1 as a bare entry. -/
theorem spec_C10_witness :
    (deleteUsersEndpoint (.ok {}) stC10 ["u1"]).1 = .okDeleted ["u1"] ∧
    (∀ id ∈ ["u1"], mget (deleteUsersEndpoint (.ok {}) stC10 ["u1"]).2.users id = none) ∧
    (deleteUsersEndpoint (.ok {}) stC10 ["u1"]).2.cases = stC10.cases ∧
    (∀ appId g cid rec2 ps md, cid ≠ "" →
      mget (deleteUsersEndpoint (.ok {}) stC10 ["u1"]).2.cases cid = some rec2 →
      (createCaseSeq appId g (deleteUsersEndpoint (.ok {}) stC10 ["u1"]).2 cid ps md).1 =
        .existing cid (createChatName appId cid true)
          (reconstructParticipants (deleteUsersEndpoint (.ok {}) stC10 ["u1"]).2
            rec2.participants) ∧
      (∀ uid ∈ rec2.participants, uid ∈ ["u1"] →
        reconstructEntry (deleteUsersEndpoint (.ok {}) stC10 ["u1"]).2 uid = .bare uid)) :=
  spec_C10 (.ok {}) stC10 ["u1"] {} (by decide) rfl

/-- Witness for claim C7 at the concrete short-lastName participant. -/
theorem spec_C7_witness :
    (payloadFor uShortA.userId (buildUserData uShortA)
        (gwAllOk.freshEmail stEmpty.userCalls)).lastName = "User" ∧
    (ensureUser gwAllOk stEmpty uShortA).2.sent =
      stEmpty.sent ++ [payloadFor uShortA.userId (buildUserData uShortA)
        (gwAllOk.freshEmail stEmpty.userCalls)] ∧
    mget (ensureUser gwAllOk stEmpty uShortA).2.users uShortA.userId =
      some { uShortA with xmppUsername := some (extractXmpp uShortA.userId {}) } ∧
    Participant.lastName { uShortA with xmppUsername := some (extractXmpp uShortA.userId {}) } =
      uShortA.lastName :=
  spec_C7 gwAllOk stEmpty uShortA {} (by decide) (by decide) (by decide) rfl

/-! Invariant preservation for the two-request interleaving machine. -/

/-- Mirror of a configuration, exchanging the two requests. -/
def Config2.swap (c : Config2) : Config2 := ⟨c.sys, c.r2, c.r1⟩

/-- Mirror of a scenario, exchanging the two request bodies. -/
def Scenario.swap (sc : Scenario) : Scenario :=
  ⟨sc.appId, sc.cid, sc.md2, sc.md1, sc.ps2, sc.ps1⟩

theorem machInv_swap (sc : Scenario) (c : Config2) (h : MachInv sc c) :
    MachInv sc.swap c.swap := by
  obtain ⟨l, ci, u, ro, o1, o2, es⟩ := h
  refine ⟨?_, ?_, ?_, ?_, o2, o1, ?_⟩
  · simpa [Config2.swap, Scenario.swap, Bool.or_comm] using l
  · simpa [Config2.swap, Scenario.swap, Bool.or_comm] using ci
  · exact fun hx => u ⟨hx.2, hx.1⟩
  · simpa [Config2.swap, Scenario.swap, Nat.add_comm] using ro
  · intro hE
    exact es (by simpa [Config2.swap, Bool.or_comm] using hE)

theorem working_not_fresh (r : RProg) (h : isWorking r = true) : isFreshDone r = false := by
  cases r <;> simp_all [isWorking, isFreshDone]

theorem working_not_existing (r : RProg) (h : isWorking r = true) :
    isExistingDone r = false := by
  cases r <;> simp_all [isWorking, isExistingDone]

/-- Fields of the state advanceUsers leaves unchanged. -/
theorem advanceUsers_fields (st : SysState) :
    ∀ (pending finished : List Participant),
      (advanceUsers st finished pending).1.cases = st.cases ∧
      (advanceUsers st finished pending).1.locks = st.locks := by
  intro pending
  induction pending with
  | nil => intro fin; simp [advanceUsers]
  | cons p rest ih =>
    intro fin
    by_cases h : truthy (cachedXmpp st.users p.userId) = true
    · simp only [advanceUsers, h, if_true]
      exact ih _
    · simp [advanceUsers, h]

/-- Shape of the advanceUsers result: an outstanding user-creation call with
the room counter unchanged, or an outstanding room-creation call with the
room counter incremented. -/
theorem advanceUsers_shape (st : SysState) :
    ∀ (pending finished : List Participant),
      ((∃ p rest fin2, (advanceUsers st finished pending).2 = .userWait p rest fin2) ∧
        (advanceUsers st finished pending).1.roomCalls = st.roomCalls) ∨
      ((∃ fin2, (advanceUsers st finished pending).2 = .roomWait fin2) ∧
        (advanceUsers st finished pending).1.roomCalls = st.roomCalls + 1) := by
  intro pending
  induction pending with
  | nil =>
    intro fin
    right
    exact ⟨⟨fin, rfl⟩, rfl⟩
  | cons p rest ih =>
    intro fin
    by_cases h : truthy (cachedXmpp st.users p.userId) = true
    · simp only [advanceUsers, h, if_true]
      exact ih _
    · simp only [advanceUsers, h, if_false]
      left
      exact ⟨⟨p, rest, fin, by simp [h]⟩, by simp [h]⟩

/-- Replacing the first request by one with the same observable flags, over a
state whose lock list, case map and room counter are unchanged, preserves the
invariant. -/
theorem machInv_congr1 (sc : Scenario) (sys sys' : SysState) (rOld rNew r2 : RProg)
    (h : MachInv sc ⟨sys, rOld, r2⟩)
    (hsl : sys'.locks = sys.locks) (hsc : sys'.cases = sys.cases)
    (hsr : sys'.roomCalls = sys.roomCalls)
    (hW : isWorking rNew = isWorking rOld) (hF : isFreshDone rNew = isFreshDone rOld)
    (hE : isExistingDone rNew = isExistingDone rOld)
    (hC : roomContrib rNew = roomContrib rOld)
    (hok : doneOk sc.appId sc.cid rNew = true) :
    MachInv sc ⟨sys', rNew, r2⟩ := by
  obtain ⟨l, ci, u, ro, o1, o2, es⟩ := h
  refine ⟨?_, ?_, ?_, ?_, hok, o2, ?_⟩
  · show sys'.locks.count sc.cid = _
    rw [hsl, hW]
    exact l
  · show mhas sys'.cases sc.cid = _
    rw [hsc, hF]
    exact ci
  · intro hx
    apply u
    constructor
    · show isOwner rOld = true
      have := hx.1
      simpa [isOwner, hW, hF] using this
    · exact hx.2
  · show sys'.roomCalls = _
    rw [hsr, hC]
    exact ro
  · intro hx
    show mhas sys'.cases sc.cid = true
    rw [hsc]
    apply es
    rw [hE] at hx
    exact hx

/-- An idle request (entry or waiting) that sees the existing case finishes
with the reconstructed response; the invariant is preserved. -/
theorem machInv_idle_to_existing (sc : Scenario) (sys : SysState) (rOld r2 : RProg)
    (h : MachInv sc ⟨sys, rOld, r2⟩)
    (hW : isWorking rOld = false) (hF : isFreshDone rOld = false)
    (hC : roomContrib rOld = 0)
    (hcase : mhas sys.cases sc.cid = true) :
    MachInv sc ⟨sys, .done (existingResp sc.appId sys sc.cid), r2⟩ := by
  obtain ⟨l, ci, u, ro, o1, o2, es⟩ := h
  have hdW : isWorking (RProg.done (existingResp sc.appId sys sc.cid)) = false := rfl
  have hdF : isFreshDone (RProg.done (existingResp sc.appId sys sc.cid)) = false := rfl
  have hdC : roomContrib (RProg.done (existingResp sc.appId sys sc.cid)) = 0 := rfl
  refine ⟨?_, ?_, ?_, ?_, ?_, o2, fun _ => hcase⟩
  · show sys.locks.count sc.cid = _
    rw [hdW]
    rw [hW] at l
    exact l
  · show mhas sys.cases sc.cid = _
    rw [hdF]
    rw [hF] at ci
    exact ci
  · intro hx
    have := hx.1
    rw [show isOwner (RProg.done (existingResp sc.appId sys sc.cid)) = false from rfl] at this
    cases this
  · show sys.roomCalls = _
    rw [hdC]
    rw [hC] at ro
    exact ro
  · simp [doneOk, existingResp]

/-- An idle request that sees neither the case nor the lock starts the
workflow: it registers the lock and issues the first external call in the
same atomic step; the invariant is preserved. -/
theorem machInv_idle_to_start (sc : Scenario) (sys : SysState) (rOld r2 : RProg)
    (ps : List Participant)
    (h : MachInv sc ⟨sys, rOld, r2⟩)
    (hW : isWorking rOld = false) (hF : isFreshDone rOld = false)
    (hC : roomContrib rOld = 0)
    (hcase : mhas sys.cases sc.cid = false) (hlock : sc.cid ∉ sys.locks) :
    MachInv sc ⟨(startCase sc.cid sys ps).1, (startCase sc.cid sys ps).2, r2⟩ := by
  obtain ⟨l, ci, u, ro, o1, o2, es⟩ := h
  have hcount0 : sys.locks.count sc.cid = 0 := List.count_eq_zero.mpr hlock
  have hW2 : isWorking r2 = false := by
    by_cases hx : isWorking r2 = true
    · rw [hW, hx] at l
      simp [hcount0] at l
    · simpa using hx
  have hF2 : isFreshDone r2 = false := by
    rw [hF] at ci
    simpa [hcase] using ci.symm
  have hE2 : isExistingDone r2 = false := by
    by_cases hx : isExistingDone r2 = true
    · have := es (by simp [hx])
      rw [this] at hcase
      cases hcase
    · simpa using hx
  have hrooms2 : sys.roomCalls = roomContrib r2 := by
    rw [hC] at ro
    simpa using ro
  rw [show startCase sc.cid sys ps =
    advanceUsers { sys with locks := sc.cid :: sys.locks } [] ps from rfl]
  have hflds := advanceUsers_fields { sys with locks := sc.cid :: sys.locks } ps []
  have hshape := advanceUsers_shape { sys with locks := sc.cid :: sys.locks } ps []
  rcases hshape with ⟨⟨p, rest, fin2, hr⟩, hroom⟩ | ⟨⟨fin2, hr⟩, hroom⟩
  · refine ⟨?_, ?_, ?_, ?_, ?_, o2, ?_⟩
    · show (advanceUsers { sys with locks := sc.cid :: sys.locks } [] ps).1.locks.count
        sc.cid = _
      rw [hflds.2, hr]
      show (sc.cid :: sys.locks).count sc.cid = _
      rw [List.count_cons_self, hcount0,
        show isWorking (RProg.userWait p rest fin2) = true from rfl]
      simp
    · show mhas (advanceUsers { sys with locks := sc.cid :: sys.locks } [] ps).1.cases
        sc.cid = _
      rw [hflds.1, hcase, hr,
        show isFreshDone (RProg.userWait p rest fin2) = false from rfl, hF2]
      rfl
    · intro hx
      have h2 := hx.2
      simp [isOwner, hW2, hF2] at h2
    · show (advanceUsers { sys with locks := sc.cid :: sys.locks } [] ps).1.roomCalls = _
      rw [hroom, hr, show roomContrib (RProg.userWait p rest fin2) = 0 from rfl]
      show sys.roomCalls = _
      rw [hrooms2]
      simp
    · rw [hr]
      rfl
    · intro hx
      rw [hr, show isExistingDone (RProg.userWait p rest fin2) = false from rfl, hE2] at hx
      simp at hx
  · refine ⟨?_, ?_, ?_, ?_, ?_, o2, ?_⟩
    · show (advanceUsers { sys with locks := sc.cid :: sys.locks } [] ps).1.locks.count
        sc.cid = _
      rw [hflds.2, hr]
      show (sc.cid :: sys.locks).count sc.cid = _
      rw [List.count_cons_self, hcount0,
        show isWorking (RProg.roomWait fin2) = true from rfl]
      simp
    · show mhas (advanceUsers { sys with locks := sc.cid :: sys.locks } [] ps).1.cases
        sc.cid = _
      rw [hflds.1, hcase, hr,
        show isFreshDone (RProg.roomWait fin2) = false from rfl, hF2]
      rfl
    · intro hx
      have h2 := hx.2
      simp [isOwner, hW2, hF2] at h2
    · show (advanceUsers { sys with locks := sc.cid :: sys.locks } [] ps).1.roomCalls = _
      rw [hroom, hr, show roomContrib (RProg.roomWait fin2) = 1 from rfl]
      show sys.roomCalls + 1 = _
      rw [hrooms2]
      simp [Nat.add_comm]
    · rw [hr]
      rfl
    · intro hx
      rw [hr, show isExistingDone (RProg.roomWait fin2) = false from rfl, hE2] at hx
      simp at hx

/-- The worker issues its room-creation call: the room counter rises by one
together with its contribution; the invariant is preserved. -/
theorem machInv_work_to_room (sc : Scenario) (sys sys' : SysState) (rOld r2 : RProg)
    (fin2 : List Participant)
    (h : MachInv sc ⟨sys, rOld, r2⟩)
    (hWold : isWorking rOld = true) (hCold : roomContrib rOld = 0)
    (hsl : sys'.locks = sys.locks) (hsc : sys'.cases = sys.cases)
    (hsr : sys'.roomCalls = sys.roomCalls + 1) :
    MachInv sc ⟨sys', .roomWait fin2, r2⟩ := by
  obtain ⟨l0, ci0, u0, ro0, o10, o2, es0⟩ := h
  have l : sys.locks.count sc.cid =
      (if (isWorking rOld || isWorking r2) = true then 1 else 0) := l0
  have ci : mhas sys.cases sc.cid = (isFreshDone rOld || isFreshDone r2) := ci0
  have u : ¬(isOwner rOld = true ∧ isOwner r2 = true) := u0
  have ro : sys.roomCalls = roomContrib rOld + roomContrib r2 := ro0
  have es : (isExistingDone rOld || isExistingDone r2) = true →
      mhas sys.cases sc.cid = true := es0
  have hFold : isFreshDone rOld = false := working_not_fresh rOld hWold
  refine ⟨?_, ?_, ?_, ?_, rfl, o2, ?_⟩
  · show sys'.locks.count sc.cid =
      (if (isWorking (RProg.roomWait fin2) || isWorking r2) = true then 1 else 0)
    rw [hsl, show isWorking (RProg.roomWait fin2) = true from rfl]
    rw [hWold] at l
    exact l
  · show mhas sys'.cases sc.cid = (isFreshDone (RProg.roomWait fin2) || isFreshDone r2)
    rw [hsc, show isFreshDone (RProg.roomWait fin2) = false from rfl]
    rw [hFold] at ci
    exact ci
  · intro hx
    apply u
    refine ⟨?_, hx.2⟩
    simp [isOwner, hWold]
  · show sys'.roomCalls = roomContrib (RProg.roomWait fin2) + roomContrib r2
    rw [hsr, show roomContrib (RProg.roomWait fin2) = 1 from rfl]
    rw [hCold] at ro
    omega
  · intro hx
    show mhas sys'.cases sc.cid = true
    rw [hsc]
    apply es
    rw [working_not_existing rOld hWold]
    rw [show isExistingDone (RProg.roomWait fin2) = false from rfl] at hx
    simpa using hx

/-- The worker commits: the case record is stored, the lock released and the
fresh response produced in one atomic step; the invariant is preserved. -/
theorem machInv_commit (sc : Scenario) (sys : SysState) (rOld r2 : RProg)
    (fin : List Participant) (md : Option String)
    (h : MachInv sc ⟨sys, rOld, r2⟩)
    (hWold : isWorking rOld = true) (hCold : roomContrib rOld = 1) :
    MachInv sc ⟨(commitCase sc.appId sc.cid md sys fin).1,
      (commitCase sc.appId sc.cid md sys fin).2, r2⟩ := by
  obtain ⟨l0, ci0, u0, ro0, o10, o2, es0⟩ := h
  have l : sys.locks.count sc.cid =
      (if (isWorking rOld || isWorking r2) = true then 1 else 0) := l0
  have u : ¬(isOwner rOld = true ∧ isOwner r2 = true) := u0
  have ro : sys.roomCalls = roomContrib rOld + roomContrib r2 := ro0
  have hO2 : isOwner r2 = false := by
    by_cases hx : isOwner r2 = true
    · exact absurd ⟨by simp [isOwner, hWold], hx⟩ u
    · simpa using hx
  have hW2 : isWorking r2 = false := by
    have hO2' := hO2
    simp [isOwner] at hO2'
    exact hO2'.1
  have hF2 : isFreshDone r2 = false := by
    have hO2' := hO2
    simp [isOwner] at hO2'
    exact hO2'.2
  have hcount1 : sys.locks.count sc.cid = 1 := by
    rw [hWold] at l
    simpa using l
  refine ⟨?_, ?_, ?_, ?_, ?_, o2, ?_⟩
  · show (sys.locks.erase sc.cid).count sc.cid =
      (if (isWorking (RProg.done (CaseRespBody.fresh sc.cid
        (createChatName sc.appId sc.cid true) fin)) || isWorking r2) = true then 1 else 0)
    rw [show isWorking (RProg.done (CaseRespBody.fresh sc.cid
      (createChatName sc.appId sc.cid true) fin)) = false from rfl, hW2,
      List.count_erase_self, hcount1]
    rfl
  · show mhas (mset sys.cases sc.cid
      { caseId := sc.cid, participants := fin.map Participant.userId, metadata := md })
      sc.cid =
      (isFreshDone (RProg.done (CaseRespBody.fresh sc.cid
        (createChatName sc.appId sc.cid true) fin)) || isFreshDone r2)
    rw [mhas_mset_self, show isFreshDone (RProg.done (CaseRespBody.fresh sc.cid
      (createChatName sc.appId sc.cid true) fin)) = true from rfl]
    rfl
  · intro hx
    have h2 := hx.2
    rw [hO2] at h2
    cases h2
  · show sys.roomCalls = roomContrib (RProg.done (CaseRespBody.fresh sc.cid
      (createChatName sc.appId sc.cid true) fin)) + roomContrib r2
    rw [show roomContrib (RProg.done (CaseRespBody.fresh sc.cid
      (createChatName sc.appId sc.cid true) fin)) = 1 from rfl]
    rw [hCold] at ro
    exact ro
  · show doneOk sc.appId sc.cid (RProg.done (CaseRespBody.fresh sc.cid
      (createChatName sc.appId sc.cid true) fin)) = true
    simp [doneOk]
  · intro hx
    show mhas (mset sys.cases sc.cid
      { caseId := sc.cid, participants := fin.map Participant.userId, metadata := md })
      sc.cid = true
    rw [mhas_mset_self]

/-- One step of the first request preserves the machine invariant. -/
theorem machInv_step1 (sc : Scenario) (c : Config2) (h : MachInv sc c) :
    MachInv sc (cstep sc c true) := by
  obtain ⟨sys, r1, r2⟩ := c
  show MachInv sc ⟨(rstep sc.appId sc.cid sc.md1 sc.ps1 sys r1).1,
    (rstep sc.appId sc.cid sc.md1 sc.ps1 sys r1).2, r2⟩
  cases r1 with
  | entry =>
    by_cases hcase : mhas sys.cases sc.cid = true
    · have hstep : rstep sc.appId sc.cid sc.md1 sc.ps1 sys .entry =
          (sys, .done (existingResp sc.appId sys sc.cid)) := by
        simp [rstep, hcase]
      rw [hstep]
      exact machInv_idle_to_existing sc sys .entry r2 h rfl rfl rfl hcase
    · have hcase' : mhas sys.cases sc.cid = false := by simpa using hcase
      by_cases hlock : sc.cid ∈ sys.locks
      · have hstep : rstep sc.appId sc.cid sc.md1 sc.ps1 sys .entry = (sys, .waiting) := by
          simp [rstep, hcase', hlock]
        rw [hstep]
        exact machInv_congr1 sc sys sys .entry .waiting r2 h rfl rfl rfl rfl rfl rfl rfl rfl
      · have hstep : rstep sc.appId sc.cid sc.md1 sc.ps1 sys .entry =
            startCase sc.cid sys sc.ps1 := by
          simp [rstep, hcase', hlock]
        rw [hstep]
        exact machInv_idle_to_start sc sys .entry r2 sc.ps1 h rfl rfl rfl hcase' hlock
  | waiting =>
    by_cases hlock : sc.cid ∈ sys.locks
    · have hstep : rstep sc.appId sc.cid sc.md1 sc.ps1 sys .waiting = (sys, .waiting) := by
        simp [rstep, hlock]
      rw [hstep]
      exact h
    · by_cases hcase : mhas sys.cases sc.cid = true
      · have hstep : rstep sc.appId sc.cid sc.md1 sc.ps1 sys .waiting =
            (sys, .done (existingResp sc.appId sys sc.cid)) := by
          simp [rstep, hlock, hcase]
        rw [hstep]
        exact machInv_idle_to_existing sc sys .waiting r2 h rfl rfl rfl hcase
      · have hcase' : mhas sys.cases sc.cid = false := by simpa using hcase
        have hstep : rstep sc.appId sc.cid sc.md1 sc.ps1 sys .waiting =
            startCase sc.cid sys sc.ps1 := by
          simp [rstep, hlock, hcase']
        rw [hstep]
        exact machInv_idle_to_start sc sys .waiting r2 sc.ps1 h rfl rfl rfl hcase' hlock
  | userWait p pending fin =>
    have hstep : rstep sc.appId sc.cid sc.md1 sc.ps1 sys (.userWait p pending fin) =
        advanceUsers
          { sys with
            users := mset sys.users p.userId { p with xmppUsername := some p.userId } }
          (fin ++ [{ p with xmppUsername := some p.userId }]) pending := rfl
    rw [hstep]
    have hflds := advanceUsers_fields
      { sys with
        users := mset sys.users p.userId { p with xmppUsername := some p.userId } }
      pending (fin ++ [{ p with xmppUsername := some p.userId }])
    have hshape := advanceUsers_shape
      { sys with
        users := mset sys.users p.userId { p with xmppUsername := some p.userId } }
      pending (fin ++ [{ p with xmppUsername := some p.userId }])
    rcases hshape with ⟨⟨q, rest, fin2, hr⟩, hroom⟩ | ⟨⟨fin2, hr⟩, hroom⟩
    · rw [hr]
      exact machInv_congr1 sc sys _ (.userWait p pending fin) (.userWait q rest fin2) r2 h
        hflds.2 hflds.1 hroom rfl rfl rfl rfl rfl
    · rw [hr]
      exact machInv_work_to_room sc sys _ (.userWait p pending fin) r2 fin2 h rfl rfl
        hflds.2 hflds.1 hroom
  | roomWait fin =>
    cases fin with
    | nil =>
      have hstep : rstep sc.appId sc.cid sc.md1 sc.ps1 sys (.roomWait []) =
          commitCase sc.appId sc.cid sc.md1 sys [] := rfl
      rw [hstep]
      exact machInv_commit sc sys (.roomWait []) r2 [] sc.md1 h rfl rfl
    | cons q rest =>
      have hstep : rstep sc.appId sc.cid sc.md1 sc.ps1 sys (.roomWait (q :: rest)) =
          ({ sys with grantCalls := sys.grantCalls + 1 },
            .grantWait rest (q :: rest)) := rfl
      rw [hstep]
      exact machInv_congr1 sc sys _ (.roomWait (q :: rest)) (.grantWait rest (q :: rest))
        r2 h rfl rfl rfl rfl rfl rfl rfl rfl
  | grantWait togrant fin =>
    cases togrant with
    | nil =>
      have hstep : rstep sc.appId sc.cid sc.md1 sc.ps1 sys (.grantWait [] fin) =
          commitCase sc.appId sc.cid sc.md1 sys fin := rfl
      rw [hstep]
      exact machInv_commit sc sys (.grantWait [] fin) r2 fin sc.md1 h rfl rfl
    | cons q rest =>
      have hstep : rstep sc.appId sc.cid sc.md1 sc.ps1 sys (.grantWait (q :: rest) fin) =
          ({ sys with grantCalls := sys.grantCalls + 1 }, .grantWait rest fin) := rfl
      rw [hstep]
      exact machInv_congr1 sc sys _ (.grantWait (q :: rest) fin) (.grantWait rest fin)
        r2 h rfl rfl rfl rfl rfl rfl rfl rfl
  | done resp =>
    have hstep : rstep sc.appId sc.cid sc.md1 sc.ps1 sys (.done resp) =
        (sys, .done resp) := rfl
    rw [hstep]
    exact h

theorem cstep_false_swap (sc : Scenario) (c : Config2) :
    cstep sc c false = (cstep sc.swap c.swap true).swap := rfl

/-- One scheduler step, for either request, preserves the invariant. -/
theorem machInv_step (sc : Scenario) (c : Config2) (b : Bool) (h : MachInv sc c) :
    MachInv sc (cstep sc c b) := by
  cases b with
  | true => exact machInv_step1 sc c h
  | false =>
    have h1 := machInv_swap sc c h
    have h2 := machInv_step1 sc.swap c.swap h1
    have h3 := machInv_swap sc.swap (cstep sc.swap c.swap true) h2
    rw [cstep_false_swap sc c]
    exact h3

/-- The invariant holds after any finite schedule. -/
theorem machInv_exec (sc : Scenario) (sched : List Bool) (c : Config2) (h : MachInv sc c) :
    MachInv sc (exec2 sc sched c) := by
  induction sched generalizing c with
  | nil => exact h
  | cons b rest ih => exact ih (cstep sc c b) (machInv_step sc c b h)

theorem roomContrib_le_one (r : RProg) : roomContrib r ≤ 1 := by
  cases r with
  | done resp => cases resp <;> simp [roomContrib]
  | _ => simp [roomContrib]

theorem roomContrib_of_not_owner (r : RProg) (h : isOwner r = false) :
    roomContrib r = 0 := by
  cases r with
  | done resp => cases resp <;> simp_all [isOwner, isWorking, isFreshDone, roomContrib]
  | _ => simp_all [isOwner, isWorking, isFreshDone, roomContrib]

theorem done_not_working (r : RProg) (h : isDone r = true) : isWorking r = false := by
  cases r <;> simp_all [isDone, isWorking]

/-- The JID carried by a finished response, if any. -/
def progJid : RProg → Option String
  | .done (.fresh _ j _) => some j
  | .done (.existing _ j _) => some j
  | _ => none

/-- A finished well-formed request either committed the case (fresh response,
one room call) or returned the existing one (no room call), and its response
carries the caseId-derived JID. -/
theorem doneOk_shape (appId cid : String) (r : RProg)
    (hd : isDone r = true) (hok : doneOk appId cid r = true) :
    ((isFreshDone r = true ∧ roomContrib r = 1 ∧ isExistingDone r = false) ∨
      (isExistingDone r = true ∧ roomContrib r = 0 ∧ isFreshDone r = false)) ∧
    progJid r = some (createChatName appId cid true) := by
  cases r with
  | done resp =>
    cases resp with
    | fresh c j ps =>
      simp only [doneOk, Bool.and_eq_true, beq_iff_eq] at hok
      refine ⟨Or.inl ⟨rfl, rfl, rfl⟩, ?_⟩
      simp [progJid, hok.2]
    | existing c j ps =>
      simp only [doneOk, Bool.and_eq_true, beq_iff_eq] at hok
      refine ⟨Or.inr ⟨rfl, rfl, rfl⟩, ?_⟩
      simp [progJid, hok.2]
    | badRequest => simp [doneOk] at hok
    | failure e => simp [doneOk] at hok
    | blockedOnLock => simp [doneOk] at hok
  | _ => simp [isDone] at hd

/-- Claim C2: two concurrent POST /cases requests for the same unseen caseId,
interleaved by the cooperative scheduler in any order, issue at most one
external room-creation call; whenever both requests have finished, exactly
one of them committed the case (one room-creation call in total), the other
returned the now-existing record, and both responses carry the same caseId
JID. In particular the second request observes the pending lock set by the
first inside its initial synchronous block, waits, and re-reads the case
map. -/
theorem spec_C2 (sc : Scenario) (users0 : List (String × Participant))
    (cases0 : List (String × CaseRecord)) (locks0 : List String)
    (sent0 : List SentProfile) (sched : List Bool)
    (hcase : mhas cases0 sc.cid = false) (hlock : sc.cid ∉ locks0) :
    (exec2 sc sched
        ⟨⟨users0, cases0, locks0, 0, 0, 0, sent0⟩, .entry, .entry⟩).sys.roomCalls ≤ 1 ∧
    (isDone (exec2 sc sched
        ⟨⟨users0, cases0, locks0, 0, 0, 0, sent0⟩, .entry, .entry⟩).r1 = true →
      isDone (exec2 sc sched
        ⟨⟨users0, cases0, locks0, 0, 0, 0, sent0⟩, .entry, .entry⟩).r2 = true →
      (exec2 sc sched
        ⟨⟨users0, cases0, locks0, 0, 0, 0, sent0⟩, .entry, .entry⟩).sys.roomCalls = 1 ∧
      ((isFreshDone (exec2 sc sched
          ⟨⟨users0, cases0, locks0, 0, 0, 0, sent0⟩, .entry, .entry⟩).r1 = true ∧
        isExistingDone (exec2 sc sched
          ⟨⟨users0, cases0, locks0, 0, 0, 0, sent0⟩, .entry, .entry⟩).r2 = true) ∨
       (isExistingDone (exec2 sc sched
          ⟨⟨users0, cases0, locks0, 0, 0, 0, sent0⟩, .entry, .entry⟩).r1 = true ∧
        isFreshDone (exec2 sc sched
          ⟨⟨users0, cases0, locks0, 0, 0, 0, sent0⟩, .entry, .entry⟩).r2 = true)) ∧
      progJid (exec2 sc sched
        ⟨⟨users0, cases0, locks0, 0, 0, 0, sent0⟩, .entry, .entry⟩).r1 =
        some (createChatName sc.appId sc.cid true) ∧
      progJid (exec2 sc sched
        ⟨⟨users0, cases0, locks0, 0, 0, 0, sent0⟩, .entry, .entry⟩).r2 =
        some (createChatName sc.appId sc.cid true)) := by
  have hinv0 : MachInv sc ⟨⟨users0, cases0, locks0, 0, 0, 0, sent0⟩, .entry, .entry⟩ := by
    refine ⟨?_, ?_, ?_, rfl, rfl, rfl, ?_⟩
    · show locks0.count sc.cid = _
      rw [List.count_eq_zero.mpr hlock]
      rfl
    · show mhas cases0 sc.cid = _
      rw [hcase]
      rfl
    · intro hx
      have := hx.1
      rw [show isOwner RProg.entry = false from rfl] at this
      cases this
    · intro hx
      rw [show isExistingDone RProg.entry = false from rfl] at hx
      simp at hx
  have hinv := machInv_exec sc sched _ hinv0
  obtain ⟨l, ci, u, ro, o1, o2, es⟩ := hinv
  constructor
  · rw [ro]
    by_cases ho1 : isOwner (exec2 sc sched
        ⟨⟨users0, cases0, locks0, 0, 0, 0, sent0⟩, .entry, .entry⟩).r1 = true
    · have ho2 : isOwner (exec2 sc sched
          ⟨⟨users0, cases0, locks0, 0, 0, 0, sent0⟩, .entry, .entry⟩).r2 = false := by
        by_cases hx : isOwner (exec2 sc sched
            ⟨⟨users0, cases0, locks0, 0, 0, 0, sent0⟩, .entry, .entry⟩).r2 = true
        · exact absurd ⟨ho1, hx⟩ u
        · simpa using hx
      rw [roomContrib_of_not_owner _ ho2]
      have := roomContrib_le_one (exec2 sc sched
        ⟨⟨users0, cases0, locks0, 0, 0, 0, sent0⟩, .entry, .entry⟩).r1
      omega
    · have ho1' : isOwner (exec2 sc sched
          ⟨⟨users0, cases0, locks0, 0, 0, 0, sent0⟩, .entry, .entry⟩).r1 = false := by
        simpa using ho1
      rw [roomContrib_of_not_owner _ ho1']
      have := roomContrib_le_one (exec2 sc sched
        ⟨⟨users0, cases0, locks0, 0, 0, 0, sent0⟩, .entry, .entry⟩).r2
      omega
  · intro hd1 hd2
    obtain ⟨hshape1, hjid1⟩ := doneOk_shape sc.appId sc.cid _ hd1 o1
    obtain ⟨hshape2, hjid2⟩ := doneOk_shape sc.appId sc.cid _ hd2 o2
    rcases hshape1 with ⟨hF1, hC1, hE1⟩ | ⟨hE1, hC1, hF1⟩
    · rcases hshape2 with ⟨hF2, hC2, hE2⟩ | ⟨hE2, hC2, hF2⟩
      · exact absurd ⟨by simp [isOwner, hF1], by simp [isOwner, hF2]⟩ u
      · refine ⟨?_, Or.inl ⟨hF1, hE2⟩, hjid1, hjid2⟩
        rw [ro, hC1, hC2]
    · rcases hshape2 with ⟨hF2, hC2, hE2⟩ | ⟨hE2, hC2, hF2⟩
      · refine ⟨?_, Or.inr ⟨hE1, hF2⟩, hjid1, hjid2⟩
        rw [ro, hC1, hC2]
      · have hmem := es (by rw [hE1]; simp)
        rw [ci, hF1, hF2] at hmem
        cases hmem

/-- Concrete two-request scenario for the concurrency witness. -/
def scW : Scenario :=
  { appId := "app", cid := "c1", md1 := none, md2 := none, ps1 := [uPat], ps2 := [uPat] }

/-- A complete schedule of the scenario: the first request runs its workflow
to completion, then the second request takes its entry step. -/
def schedW : List Bool := [true, true, true, true, false]

/-- Witness for claim C2 at a concrete scenario and schedule. -/
theorem spec_C2_witness :
    (exec2 scW schedW
        ⟨⟨[], [], [], 0, 0, 0, []⟩, .entry, .entry⟩).sys.roomCalls ≤ 1 ∧
    (isDone (exec2 scW schedW
        ⟨⟨[], [], [], 0, 0, 0, []⟩, .entry, .entry⟩).r1 = true →
      isDone (exec2 scW schedW
        ⟨⟨[], [], [], 0, 0, 0, []⟩, .entry, .entry⟩).r2 = true →
      (exec2 scW schedW
        ⟨⟨[], [], [], 0, 0, 0, []⟩, .entry, .entry⟩).sys.roomCalls = 1 ∧
      ((isFreshDone (exec2 scW schedW
          ⟨⟨[], [], [], 0, 0, 0, []⟩, .entry, .entry⟩).r1 = true ∧
        isExistingDone (exec2 scW schedW
          ⟨⟨[], [], [], 0, 0, 0, []⟩, .entry, .entry⟩).r2 = true) ∨
       (isExistingDone (exec2 scW schedW
          ⟨⟨[], [], [], 0, 0, 0, []⟩, .entry, .entry⟩).r1 = true ∧
        isFreshDone (exec2 scW schedW
          ⟨⟨[], [], [], 0, 0, 0, []⟩, .entry, .entry⟩).r2 = true)) ∧
      progJid (exec2 scW schedW
        ⟨⟨[], [], [], 0, 0, 0, []⟩, .entry, .entry⟩).r1 =
        some (createChatName scW.appId scW.cid true) ∧
      progJid (exec2 scW schedW
        ⟨⟨[], [], [], 0, 0, 0, []⟩, .entry, .entry⟩).r2 =
        some (createChatName scW.appId scW.cid true)) :=
  spec_C2 scW [] [] [] [] schedW (by decide) (by decide)
